import Mathlib

/-!
# Bookshop inventory: the store ledger of `src/main.cpp`

A shallow embedding of the classes `Publication`, `Book`, `Magazine`, `Customer`,
`Cashier` and `StoreManager` of `src/main.cpp`, followed by theorems about them.

Modelling conventions.

* A C++ `double` is a rational number (`ℚ`) in the embedding of the engine: money is
  exact, and the literal `0.10` is the rational `1/10`.  This is the reading of money
  that the claims on cash conservation and on the discount fix.  What the hardware
  computes for the cashier's debits is given apart, in the section on double precision
  (`Binary64`), for the statements on exact amounts that do not fix that reading.
* A C++ `int` is an integer (`Int`) in the range `INT_MIN .. INT_MAX` of a 32-bit
  two's complement word.  The sum stored by `+=` (main.cpp 129, 149) is reduced into
  that range by `wrapInt32`, which is what the compiled program does when the sum
  leaves the range.  The decrement `--` (main.cpp 194, 221) is only reached from a
  positive value and cannot leave the range.  The conversion of an `int` to `double`
  is exact.
* A `void` member function that mutates its object becomes a function from the old
  object to the new one, paired with the list of console messages it writes.  A
  console message is a constructor of `Output` carrying the values that are printed.
* The `Cashier&` held by `StoreManager` is the only alias of the cashier that the
  engine operations use, so it is a field of the store state.
* A range-based `for` loop with an early `return` is a structural recursion over the
  vector: the result is `none` when the loop falls through its end.
-/

namespace BookShop

/-! ## Machine integers -/

/-- The least value of a 32-bit `int`. -/
def INT_MIN : Int := -2147483648

/-- The greatest value of a 32-bit `int`. -/
def INT_MAX : Int := 2147483647

/-- The value a 32-bit two's complement word holds after an addition whose exact result
is `x`: the integer of `INT_MIN .. INT_MAX` that differs from `x` by a multiple of
`2 ^ 32`. -/
def wrapInt32 (x : Int) : Int := (x + 2147483648) % 4294967296 - 2147483648

/-! ## Data model -/

/-- Class `Publication` (main.cpp 13-27). -/
structure Publication where
  title : String
  author : String
  publicationYear : Int
deriving DecidableEq

/-- Class `Book`, derived from `Publication` (main.cpp 29-42). -/
structure Book extends Publication where
  numCopies : Int
  pricePerCopy : ℚ
deriving DecidableEq

/-- Class `Magazine`, derived from `Publication` (main.cpp 44-59). -/
structure Magazine extends Publication where
  issueNumber : Int
  genre : String
  monthlySubscriptionCost : ℚ
deriving DecidableEq

/-- Class `Customer` (main.cpp 61-78). -/
structure Customer where
  customer_id : Int
  name : String
deriving DecidableEq

/-- Class `Cashier` (main.cpp 80-110). -/
structure Cashier where
  initialMoney : ℚ
  moneyPaidByCustomer : ℚ
deriving DecidableEq

/-- Messages written to `std::cout` by the engine operations, one constructor per
message, with the printed values as arguments. -/
inductive Output where
  /-- Message "Payment received: $amount" (main.cpp 98). -/
  | paymentReceived (amount : ℚ)
  /-- Message "Money reduced for book purchase: $amount" (main.cpp 103). -/
  | moneyReducedForBook (amount : ℚ)
  /-- Message "Money reduced for magazine purchase: $amount" (main.cpp 108). -/
  | moneyReducedForMagazine (amount : ℚ)
  /-- Message "Number of copies updated for existing book." (main.cpp 130). -/
  | copiesUpdated
  /-- Message "Book added to inventory." (main.cpp 139). -/
  | bookAdded
  /-- Message "Issue number updated for existing magazine." (main.cpp 150). -/
  | issueUpdated
  /-- Message "Magazine added to inventory." (main.cpp 159). -/
  | magazineAdded
  /-- Message "Book sold to customer:" and the book as `displayInfo` prints it, which is
  before the decrement (main.cpp 192-193). -/
  | bookSold (book : Book)
  /-- Message "Magazine sold to customer:" and the magazine as `displayInfo` prints it, which
  is before the decrement (main.cpp 219-220). -/
  | magazineSold (magazine : Magazine)
  /-- Message "Customer Type: ..." (main.cpp 199, 226). -/
  | customerType (isOldCustomer : Bool)
  /-- Message "Discount Applied: $discount" (main.cpp 200, 228). -/
  | discountApplied (discount : ℚ)
  /-- Message "Sorry, the requested book is out of stock." (main.cpp 206). -/
  | bookOutOfStock
  /-- Message "Sorry,the requested book is not in the inventory." (main.cpp 212). -/
  | bookNotInInventory
  /-- Message "Sorry, the requested magazine is out of stock." (main.cpp 233). -/
  | magazineOutOfStock
  /-- Message "Sorry, the requested magazine is not in the inventory." (main.cpp 238). -/
  | magazineNotInInventory
deriving DecidableEq

/-- Class `StoreManager` (main.cpp 112-120): the three vectors and the cashier it
refers to. -/
structure StoreManager where
  books : List Book
  magazines : List Magazine
  customers : List Customer
  cashier : Cashier
deriving DecidableEq

/-! ## Cashier -/

/-- Constructor `Cashier(double initial)` (main.cpp 87). -/
def Cashier.new (initial : ℚ) : Cashier :=
  { initialMoney := initial, moneyPaidByCustomer := 0 }

/-- The member `Cashier::receivePayment` (main.cpp 96-99), with money as exact
rationals. -/
def Cashier.receivePayment (c : Cashier) (amount : ℚ) : Cashier × List Output :=
  ({ c with moneyPaidByCustomer := c.moneyPaidByCustomer + amount },
    [Output.paymentReceived amount])

/-- The member `Cashier::reduceMoneyForBook` (main.cpp 101-104), with money as exact
rationals; `Cashier64.reduceMoneyForBook` is the same member in double precision. -/
def Cashier.reduceMoneyForBook (c : Cashier) (amount : ℚ) : Cashier × List Output :=
  ({ c with initialMoney := c.initialMoney - amount },
    [Output.moneyReducedForBook amount])

/-- The member `Cashier::reduceMoneyForMagazine` (main.cpp 106-109), with money as exact
rationals; `Cashier64.reduceMoneyForMagazine` is the same member in double precision. -/
def Cashier.reduceMoneyForMagazine (c : Cashier) (amount : ℚ) : Cashier × List Output :=
  ({ c with initialMoney := c.initialMoney - amount },
    [Output.moneyReducedForMagazine amount])

/-! ## Store manager: intake -/

/-- Constructor `StoreManager(Cashier& c)` (main.cpp 120): empty vectors. -/
def StoreManager.new (c : Cashier) : StoreManager :=
  { books := [], magazines := [], customers := [], cashier := c }

/-- The loop of `addBook` (main.cpp 124-134) over the book vector: at the first entry
with the title, author and year of `book` the copies are added and the loop returns;
`none` when the loop ends without a match. -/
def addBookLoop (book : Book) : List Book → Option (List Book)
  | [] => none
  | existingBook :: rest =>
    if existingBook.title = book.title ∧
        existingBook.author = book.author ∧
        existingBook.publicationYear = book.publicationYear then
      some ({ existingBook with
                numCopies := wrapInt32 (existingBook.numCopies + book.numCopies) } :: rest)
    else
      (addBookLoop book rest).map fun r => existingBook :: r

/-- The member `StoreManager::addBook` (main.cpp 122-140). -/
def StoreManager.addBook (s : StoreManager) (book : Book) : StoreManager × List Output :=
  match addBookLoop book s.books with
  | some books =>
    let r := s.cashier.reduceMoneyForBook (book.pricePerCopy * book.numCopies)
    ({ s with books := books, cashier := r.1 }, Output.copiesUpdated :: r.2)
  | none =>
    let r := s.cashier.reduceMoneyForBook (book.pricePerCopy * book.numCopies)
    ({ s with books := s.books ++ [book], cashier := r.1 }, r.2 ++ [Output.bookAdded])

/-- The loop of `addMagazine` (main.cpp 144-154) over the magazine vector. -/
def addMagazineLoop (magazine : Magazine) : List Magazine → Option (List Magazine)
  | [] => none
  | existingMagazine :: rest =>
    if existingMagazine.title = magazine.title ∧
        existingMagazine.author = magazine.author ∧
        existingMagazine.publicationYear = magazine.publicationYear then
      some ({ existingMagazine with
                issueNumber :=
                  wrapInt32 (existingMagazine.issueNumber + magazine.issueNumber) } :: rest)
    else
      (addMagazineLoop magazine rest).map fun r => existingMagazine :: r

/-- The member `StoreManager::addMagazine` (main.cpp 142-160). -/
def StoreManager.addMagazine (s : StoreManager) (magazine : Magazine) :
    StoreManager × List Output :=
  match addMagazineLoop magazine s.magazines with
  | some magazines =>
    let r := s.cashier.reduceMoneyForMagazine magazine.monthlySubscriptionCost
    ({ s with magazines := magazines, cashier := r.1 }, Output.issueUpdated :: r.2)
  | none =>
    let r := s.cashier.reduceMoneyForMagazine magazine.monthlySubscriptionCost
    ({ s with magazines := s.magazines ++ [magazine], cashier := r.1 },
      r.2 ++ [Output.magazineAdded])

/-- The member `StoreManager::registerCustomer` (main.cpp 162-164). -/
def StoreManager.registerCustomer (s : StoreManager) (customer : Customer) :
    StoreManager × List Output :=
  ({ s with customers := s.customers ++ [customer] }, [])

/-! ## Store manager: sale -/

/-- The loop of `sellBookToCustomer` (main.cpp 188-210): the new book vector, the new
cashier and the messages written, or `none` when no entry has the requested title and
year and the loop ends. -/
def sellBookLoop (requestedTitle : String) (requestedYear : Int) (isOldCustomer : Bool)
    (cashier : Cashier) : List Book → Option (List Book × Cashier × List Output)
  | [] => none
  | book :: rest =>
    if book.title = requestedTitle ∧ book.publicationYear = requestedYear then
      if book.numCopies > 0 then
        let discount : ℚ := if isOldCustomer then (1 / 10) * book.pricePerCopy else 0
        let discountedPrice : ℚ := book.pricePerCopy - discount
        let r := cashier.receivePayment discountedPrice
        some ({ book with numCopies := book.numCopies - 1 } :: rest, r.1,
          [Output.bookSold book, Output.customerType isOldCustomer,
            Output.discountApplied discount] ++ r.2)
      else
        some (book :: rest, cashier, [Output.bookOutOfStock])
    else
      (sellBookLoop requestedTitle requestedYear isOldCustomer cashier rest).map
        fun r => (book :: r.1, r.2.1, r.2.2)

/-- The member `StoreManager::sellBookToCustomer` (main.cpp 187-213). -/
def StoreManager.sellBookToCustomer (s : StoreManager) (requestedTitle : String)
    (requestedYear : Int) (isOldCustomer : Bool) : StoreManager × List Output :=
  match sellBookLoop requestedTitle requestedYear isOldCustomer s.cashier s.books with
  | some r => ({ s with books := r.1, cashier := r.2.1 }, r.2.2)
  | none => (s, [Output.bookNotInInventory])

/-- The loop of `sellMagazineToCustomer` (main.cpp 216-237). -/
def sellMagazineLoop (requestedTitle : String) (requestedYear : Int) (isOldCustomer : Bool)
    (cashier : Cashier) : List Magazine → Option (List Magazine × Cashier × List Output)
  | [] => none
  | magazine :: rest =>
    if magazine.title = requestedTitle ∧ magazine.publicationYear = requestedYear then
      if magazine.issueNumber > 0 then
        let discount : ℚ :=
          if isOldCustomer then (1 / 10) * magazine.monthlySubscriptionCost else 0
        let discountedPrice : ℚ := magazine.monthlySubscriptionCost - discount
        let r := cashier.receivePayment discountedPrice
        some ({ magazine with issueNumber := magazine.issueNumber - 1 } :: rest, r.1,
          [Output.magazineSold magazine, Output.customerType isOldCustomer,
            Output.discountApplied discount] ++ r.2)
      else
        some (magazine :: rest, cashier, [Output.magazineOutOfStock])
    else
      (sellMagazineLoop requestedTitle requestedYear isOldCustomer cashier rest).map
        fun r => (magazine :: r.1, r.2.1, r.2.2)

/-- The member `StoreManager::sellMagazineToCustomer` (main.cpp 215-239). -/
def StoreManager.sellMagazineToCustomer (s : StoreManager) (requestedTitle : String)
    (requestedYear : Int) (isOldCustomer : Bool) : StoreManager × List Output :=
  match sellMagazineLoop requestedTitle requestedYear isOldCustomer s.cashier s.magazines with
  | some r => ({ s with magazines := r.1, cashier := r.2.1 }, r.2.2)
  | none => (s, [Output.magazineNotInInventory])

/-! ## Sequences of engine calls -/

/-- One call into the engine, as `main` dispatches it (main.cpp 289, 325, 381, 418,
441). -/
inductive Op where
  | addBook (book : Book)
  | addMagazine (magazine : Magazine)
  | sellBook (requestedTitle : String) (requestedYear : Int) (isOldCustomer : Bool)
  | sellMagazine (requestedTitle : String) (requestedYear : Int) (isOldCustomer : Bool)
  | registerCustomer (customer : Customer)
deriving DecidableEq

/-- Perform one engine call. -/
def step (s : StoreManager) : Op → StoreManager × List Output
  | Op.addBook book => s.addBook book
  | Op.addMagazine magazine => s.addMagazine magazine
  | Op.sellBook t y f => s.sellBookToCustomer t y f
  | Op.sellMagazine t y f => s.sellMagazineToCustomer t y f
  | Op.registerCustomer customer => s.registerCustomer customer

/-- Perform a sequence of engine calls in order, collecting the messages. -/
def run (s : StoreManager) : List Op → StoreManager × List Output
  | [] => (s, [])
  | op :: ops =>
    let r := step s op
    let r2 := run r.1 ops
    (r2.1, r.2 ++ r2.2)

/-! ## Reference quantities for the cash ledger

The two definitions of this section follow the wording of the specification, not the
code: they are what the cash ledger of the code is compared with. -/

/-- The money a call should bring in, in the words of the specification (section 4.5):
a sale looks for the first entry with the requested title and year; when that entry
exists and its stock gauge is positive the sale succeeds at the final price, which is
the unit price minus the discount, the discount being a tenth of the unit price for a
loyalty customer and nothing otherwise.  Every other call brings in nothing. -/
def specSalePrice (s : StoreManager) : Op → ℚ
  | Op.sellBook t y f =>
    match s.books.find? fun b => decide (b.title = t ∧ b.publicationYear = y) with
    | some b =>
      if 0 < b.numCopies then
        b.pricePerCopy - (if f then (1 / 10) * b.pricePerCopy else 0)
      else 0
    | none => 0
  | Op.sellMagazine t y f =>
    match s.magazines.find? fun m => decide (m.title = t ∧ m.publicationYear = y) with
    | some m =>
      if 0 < m.issueNumber then
        m.monthlySubscriptionCost - (if f then (1 / 10) * m.monthlySubscriptionCost else 0)
      else 0
    | none => 0
  | _ => 0

/-- The money a call should cost the store, in the words of the specification (section
4.4): unit price times copies for a book intake, the subscription cost for a magazine
intake, nothing for every other call. -/
def specIntakeDebit : Op → ℚ
  | Op.addBook book => book.pricePerCopy * book.numCopies
  | Op.addMagazine magazine => magazine.monthlySubscriptionCost
  | _ => 0

/-- The sum of `specSalePrice` over a sequence of calls, each taken in the state the
engine has reached when the call is made. -/
def specSalesTotal (s : StoreManager) : List Op → ℚ
  | [] => 0
  | op :: ops => specSalePrice s op + specSalesTotal (step s op).1 ops

/-! ## Reference quantities for the stock ledger -/

/-- The copies a call brings into the book list: `numCopies` of the candidate for
`addBook`, nothing for every other call. -/
def intakeCopies : Op → Int
  | Op.addBook book => book.numCopies
  | _ => 0

/-- The issues a call brings into the magazine list: `issueNumber` of the candidate for
`addMagazine`, nothing for every other call. -/
def intakeIssues : Op → Int
  | Op.addMagazine magazine => magazine.issueNumber
  | _ => 0

/-- Whether the sum a book intake stores fits in an `int`: for `addBook` the `numCopies`
of the first entry with the candidate's title, author and year plus the `numCopies` of
the candidate lies in `INT_MIN .. INT_MAX` (true when there is no such entry, as nothing
is added then); true for every other call. -/
def bookIntakeInRange (s : StoreManager) : Op → Bool
  | Op.addBook book =>
    match s.books.find? fun e => decide (e.title = book.title ∧ e.author = book.author ∧
        e.publicationYear = book.publicationYear) with
    | some e =>
      decide (INT_MIN ≤ e.numCopies + book.numCopies ∧ e.numCopies + book.numCopies ≤ INT_MAX)
    | none => true
  | _ => true

/-- Whether the sum a magazine intake stores fits in an `int`: for `addMagazine` the
`issueNumber` of the first entry with the candidate's title, author and year plus the
`issueNumber` of the candidate lies in `INT_MIN .. INT_MAX` (true when there is no such
entry); true for every other call. -/
def magazineIntakeInRange (s : StoreManager) : Op → Bool
  | Op.addMagazine magazine =>
    match s.magazines.find? fun e => decide (e.title = magazine.title ∧
        e.author = magazine.author ∧ e.publicationYear = magazine.publicationYear) with
    | some e =>
      decide (INT_MIN ≤ e.issueNumber + magazine.issueNumber ∧
        e.issueNumber + magazine.issueNumber ≤ INT_MAX)
    | none => true
  | _ => true

/-- Whether `bookIntakeInRange` holds at every call of a sequence, each call taken in the
state the engine has reached when it is made. -/
def runBooksInRange (s : StoreManager) : List Op → Bool
  | [] => true
  | op :: ops => bookIntakeInRange s op && runBooksInRange (step s op).1 ops

/-- Whether `magazineIntakeInRange` holds at every call of a sequence, each call taken in
the state the engine has reached when it is made. -/
def runMagazinesInRange (s : StoreManager) : List Op → Bool
  | [] => true
  | op :: ops => magazineIntakeInRange s op && runMagazinesInRange (step s op).1 ops

/-- Whether a console message is "Book sold to customer:", which `sellBookToCustomer`
writes exactly when a sale succeeds (main.cpp 191-192). -/
def Output.isBookSold : Output → Bool
  | Output.bookSold _ => true
  | _ => false

/-- Whether a console message is "Magazine sold to customer:", which
`sellMagazineToCustomer` writes exactly when a sale succeeds (main.cpp 218-219). -/
def Output.isMagazineSold : Output → Bool
  | Output.magazineSold _ => true
  | _ => false

/-! ## The renaming of magazines into books

The two definitions of this section follow the wording of the specification (section
4.5: the magazine sale is the book sale with `issueNumber` as the stock gauge and the
subscription cost as the price base), not the code. -/

/-- The book a magazine is renamed into: same title, author and year,
`numCopies = issueNumber` and `pricePerCopy = monthlySubscriptionCost`. -/
def Magazine.toBook (m : Magazine) : Book :=
  { toPublication := m.toPublication, numCopies := m.issueNumber,
    pricePerCopy := m.monthlySubscriptionCost }

/-- The same renaming on console messages: the three messages of the magazine sale
become those of the book sale, every other message is kept. -/
def Output.renameMagazine : Output → Output
  | Output.magazineSold magazine => Output.bookSold magazine.toBook
  | Output.magazineOutOfStock => Output.bookOutOfStock
  | Output.magazineNotInInventory => Output.bookNotInInventory
  | o => o

/-! ## Double precision (IEEE 754 binary64)

The money of the program is `double`.  This section gives the values of that type and
the three operations the intake debit uses (main.cpp 102, 107, 131, 138): the
conversion of an `int`, the product and the difference, each the exact result rounded
to the nearest value, ties to the even mantissa.  The sign of a zero is not recorded. -/

/-- A value of type `double`: the finite number `mantissa * 2 ^ exponent`, an infinity,
or not-a-number.  `Binary64.round` yields finite values in the form where
`|mantissa| < 2 ^ 53`, `exponent ≥ -1074`, and `|mantissa| ≥ 2 ^ 52` unless
`exponent = -1074`. -/
inductive Binary64 where
  | finite (mantissa : Int) (exponent : Int)
  | infinity (negative : Bool)
  | nan
deriving DecidableEq

/-- The number of binary digits of `n`, counted with `fuel` halvings. -/
def bitLengthAux : Nat → Nat → Nat
  | 0, _ => 0
  | fuel + 1, n => if n = 0 then 0 else bitLengthAux fuel (n / 2) + 1

/-- The number of binary digits of `n` (`0` for `0`). -/
def bitLength (n : Nat) : Nat := bitLengthAux n n

/-- The `double` nearest to the exact number `m * 2 ^ e`, ties to the even mantissa: the
unit in the last place is `2 ^ e1`, where `e1` leaves 53 binary digits but is at least
`-1074`; digits below it are dropped and the last kept digit is rounded; a result of
`2 ^ 1024` or more is an infinity. -/
def Binary64.round (m e : Int) : Binary64 :=
  if m = 0 then Binary64.finite 0 (-1074)
  else
    let n : Nat := m.natAbs
    let e1 : Int := max (e + bitLength n - 53) (-1074)
    let k : Nat := (e1 - e).toNat
    let up : Nat := (e - e1).toNat
    let q : Nat := n * 2 ^ up / 2 ^ k
    let r : Nat := n * 2 ^ up % 2 ^ k
    let q1 : Nat := if 2 * r > 2 ^ k ∨ (2 * r = 2 ^ k ∧ q % 2 = 1) then q + 1 else q
    let q2 : Nat := if q1 = 2 ^ 53 then 2 ^ 52 else q1
    let e2 : Int := if q1 = 2 ^ 53 then e1 + 1 else e1
    if e2 > 971 then Binary64.infinity (decide (m < 0))
    else Binary64.finite (if m < 0 then -(q2 : Int) else (q2 : Int)) e2

/-- The conversion of an `int` to `double`. -/
def Binary64.ofInt (n : Int) : Binary64 := Binary64.round n 0

/-- The difference `x - y` of two `double` values. -/
def Binary64.sub : Binary64 → Binary64 → Binary64
  | Binary64.finite m1 e1, Binary64.finite m2 e2 =>
    Binary64.round
      (m1 * ((2 ^ (e1 - min e1 e2).toNat : Nat) : Int) -
        m2 * ((2 ^ (e2 - min e1 e2).toNat : Nat) : Int)) (min e1 e2)
  | Binary64.finite _ _, Binary64.infinity negative => Binary64.infinity (!negative)
  | Binary64.infinity negative, Binary64.finite _ _ => Binary64.infinity negative
  | Binary64.infinity n1, Binary64.infinity n2 =>
    if n1 = n2 then Binary64.nan else Binary64.infinity n1
  | _, _ => Binary64.nan

/-- The product `x * y` of two `double` values. -/
def Binary64.mul : Binary64 → Binary64 → Binary64
  | Binary64.finite m1 e1, Binary64.finite m2 e2 => Binary64.round (m1 * m2) (e1 + e2)
  | Binary64.finite m _, Binary64.infinity negative =>
    if m = 0 then Binary64.nan else Binary64.infinity (xor negative (decide (m < 0)))
  | Binary64.infinity negative, Binary64.finite m _ =>
    if m = 0 then Binary64.nan else Binary64.infinity (xor negative (decide (m < 0)))
  | Binary64.infinity n1, Binary64.infinity n2 => Binary64.infinity (xor n1 n2)
  | _, _ => Binary64.nan

/-- Class `Cashier` (main.cpp 80-110) with its two `double` fields in double
precision. -/
structure Cashier64 where
  initialMoney : Binary64
  moneyPaidByCustomer : Binary64
deriving DecidableEq

/-- Constructor `Cashier(double initial)` (main.cpp 87), in double precision. -/
def Cashier64.new (initial : Binary64) : Cashier64 :=
  { initialMoney := initial, moneyPaidByCustomer := Binary64.ofInt 0 }

/-- The member `Cashier::reduceMoneyForBook` (main.cpp 101-104), in double precision:
the cashier after `initialMoney -= amount`. -/
def Cashier64.reduceMoneyForBook (c : Cashier64) (amount : Binary64) : Cashier64 :=
  { c with initialMoney := c.initialMoney.sub amount }

/-- The member `Cashier::reduceMoneyForMagazine` (main.cpp 106-109), in double precision:
the cashier after `initialMoney -= amount`. -/
def Cashier64.reduceMoneyForMagazine (c : Cashier64) (amount : Binary64) : Cashier64 :=
  { c with initialMoney := c.initialMoney.sub amount }

/-- What `addBook` does to the cashier, in either branch (main.cpp 131, 138), in double
precision: `cashier.reduceMoneyForBook(book.pricePerCopy * book.numCopies)`, the `int`
being converted to `double` for the product. -/
def addBookDebit64 (c : Cashier64) (pricePerCopy : Binary64) (numCopies : Int) : Cashier64 :=
  c.reduceMoneyForBook (pricePerCopy.mul (Binary64.ofInt numCopies))

/-- What `addMagazine` does to the cashier, in either branch (main.cpp 151, 158), in
double precision: `cashier.reduceMoneyForMagazine(magazine.monthlySubscriptionCost)`. -/
def addMagazineDebit64 (c : Cashier64) (monthlySubscriptionCost : Binary64) : Cashier64 :=
  c.reduceMoneyForMagazine monthlySubscriptionCost

/-! ## Example data (specification, section 8, property 6) -/

/-- The first book of the example: `Book("Dune","Herbert",1965,5,10.0)`. -/
def duneHerbert : Book :=
  { title := "Dune", author := "Herbert", publicationYear := 1965, numCopies := 5,
    pricePerCopy := 10 }

/-- The second book of the example: `Book("Dune","Other",1965,3,10.0)`. -/
def duneOther : Book :=
  { title := "Dune", author := "Other", publicationYear := 1965, numCopies := 3,
    pricePerCopy := 10 }

/-- A magazine with two issues in stock. -/
def wiredMagazine : Magazine :=
  { title := "Wired", author := "Conde", publicationYear := 2020, issueNumber := 2,
    genre := "Tech", monthlySubscriptionCost := 20 }

/-- The store of `main` (main.cpp 246-247): no stock, cashier with 1000. -/
def emptyStore : StoreManager := StoreManager.new (Cashier.new 1000)

/-- The store after the two example books and the example magazine have been taken in. -/
def duneStore : StoreManager :=
  { books := [duneHerbert, duneOther], magazines := [wiredMagazine], customers := [],
    cashier := { initialMoney := 900, moneyPaidByCustomer := 0 } }

/-- A store whose only book and only magazine are sold out. -/
def soldOutStore : StoreManager :=
  { books := [{ duneHerbert with numCopies := 0 }],
    magazines := [{ wiredMagazine with issueNumber := 0 }], customers := [],
    cashier := { initialMoney := 900, moneyPaidByCustomer := 0 } }

/-- The cashier of `main` (`Cashier cashier(1000.0)`, main.cpp 246) after the intake of
one copy of a book priced at `1e16`, in double precision: the balance is
`1000 - 1e16 = -9999999999999000`. -/
def largeDebtCashier : Cashier64 :=
  addBookDebit64 (Cashier64.new (Binary64.ofInt 1000)) (Binary64.round (10 ^ 16) 0) 1

/-- A book entered with a negative price, which `main` accepts (main.cpp 283-286). -/
def negativePriceBook : Book :=
  { title := "Refund", author := "Nobody", publicationYear := 2000, numCopies := 1,
    pricePerCopy := -5 }

/-- A store whose first "Dune" of 1965 is sold out while a later one is in stock. -/
def shadowedStore : StoreManager :=
  { books := [{ duneHerbert with numCopies := 0 }, duneOther], magazines := [],
    customers := [], cashier := { initialMoney := 900, moneyPaidByCustomer := 0 } }

/-! ## The loops, by the position of the first match -/

theorem addBookLoop_none (book : Book) (books : List Book)
    (h : ∀ e ∈ books, ¬ (e.title = book.title ∧ e.author = book.author ∧
      e.publicationYear = book.publicationYear)) :
    addBookLoop book books = none := by
  induction books with
  | nil => rfl
  | cons e rest ih =>
    have he := h e (List.mem_cons_self e rest)
    have hr := ih fun x hx => h x (List.mem_cons_of_mem e hx)
    simp only [addBookLoop, if_neg he, hr, Option.map_none']

theorem addBookLoop_first (book e : Book) (pre post : List Book)
    (hpre : ∀ x ∈ pre, ¬ (x.title = book.title ∧ x.author = book.author ∧
      x.publicationYear = book.publicationYear))
    (he : e.title = book.title ∧ e.author = book.author ∧
      e.publicationYear = book.publicationYear) :
    addBookLoop book (pre ++ e :: post) =
      some (pre ++ { e with numCopies := wrapInt32 (e.numCopies + book.numCopies) } :: post) := by
  induction pre with
  | nil => simp only [List.nil_append, addBookLoop, if_pos he]
  | cons x rest ih =>
    have hx := hpre x (List.mem_cons_self x rest)
    have hr := ih fun z hz => hpre z (List.mem_cons_of_mem x hz)
    simp only [List.cons_append]
    simp only [addBookLoop, if_neg hx, hr, Option.map_some']

theorem addMagazineLoop_none (magazine : Magazine) (magazines : List Magazine)
    (h : ∀ e ∈ magazines, ¬ (e.title = magazine.title ∧ e.author = magazine.author ∧
      e.publicationYear = magazine.publicationYear)) :
    addMagazineLoop magazine magazines = none := by
  induction magazines with
  | nil => rfl
  | cons e rest ih =>
    have he := h e (List.mem_cons_self e rest)
    have hr := ih fun x hx => h x (List.mem_cons_of_mem e hx)
    simp only [addMagazineLoop, if_neg he, hr, Option.map_none']

theorem addMagazineLoop_first (magazine e : Magazine) (pre post : List Magazine)
    (hpre : ∀ x ∈ pre, ¬ (x.title = magazine.title ∧ x.author = magazine.author ∧
      x.publicationYear = magazine.publicationYear))
    (he : e.title = magazine.title ∧ e.author = magazine.author ∧
      e.publicationYear = magazine.publicationYear) :
    addMagazineLoop magazine (pre ++ e :: post) =
      some (pre ++
        { e with issueNumber := wrapInt32 (e.issueNumber + magazine.issueNumber) } :: post) := by
  induction pre with
  | nil => simp only [List.nil_append, addMagazineLoop, if_pos he]
  | cons x rest ih =>
    have hx := hpre x (List.mem_cons_self x rest)
    have hr := ih fun z hz => hpre z (List.mem_cons_of_mem x hz)
    simp only [List.cons_append]
    simp only [addMagazineLoop, if_neg hx, hr, Option.map_some']

theorem sellBookLoop_none (t : String) (y : Int) (f : Bool) (c : Cashier) (books : List Book)
    (h : ∀ b ∈ books, ¬ (b.title = t ∧ b.publicationYear = y)) :
    sellBookLoop t y f c books = none := by
  induction books with
  | nil => rfl
  | cons b rest ih =>
    have hb := h b (List.mem_cons_self b rest)
    have hr := ih fun x hx => h x (List.mem_cons_of_mem b hx)
    simp only [sellBookLoop, if_neg hb, hr, Option.map_none']

theorem sellBookLoop_skip (t : String) (y : Int) (f : Bool) (c : Cashier)
    (pre rest : List Book) (h : ∀ b ∈ pre, ¬ (b.title = t ∧ b.publicationYear = y)) :
    sellBookLoop t y f c (pre ++ rest) =
      (sellBookLoop t y f c rest).map fun r => (pre ++ r.1, r.2.1, r.2.2) := by
  induction pre with
  | nil => simp
  | cons x xs ih =>
    have hx := h x (List.mem_cons_self x xs)
    have hr := ih fun z hz => h z (List.mem_cons_of_mem x hz)
    rw [List.cons_append]
    simp only [sellBookLoop, if_neg hx, hr, Option.map_map]
    rfl

theorem sellMagazineLoop_none (t : String) (y : Int) (f : Bool) (c : Cashier)
    (magazines : List Magazine)
    (h : ∀ m ∈ magazines, ¬ (m.title = t ∧ m.publicationYear = y)) :
    sellMagazineLoop t y f c magazines = none := by
  induction magazines with
  | nil => rfl
  | cons m rest ih =>
    have hm := h m (List.mem_cons_self m rest)
    have hr := ih fun x hx => h x (List.mem_cons_of_mem m hx)
    simp only [sellMagazineLoop, if_neg hm, hr, Option.map_none']

theorem sellMagazineLoop_skip (t : String) (y : Int) (f : Bool) (c : Cashier)
    (pre rest : List Magazine) (h : ∀ m ∈ pre, ¬ (m.title = t ∧ m.publicationYear = y)) :
    sellMagazineLoop t y f c (pre ++ rest) =
      (sellMagazineLoop t y f c rest).map fun r => (pre ++ r.1, r.2.1, r.2.2) := by
  induction pre with
  | nil => simp
  | cons x xs ih =>
    have hx := h x (List.mem_cons_self x xs)
    have hr := ih fun z hz => h z (List.mem_cons_of_mem x hz)
    rw [List.cons_append]
    simp only [sellMagazineLoop, if_neg hx, hr, Option.map_map]
    rfl

/-- Every list either has no element satisfying `p`, or splits at the first one. -/
theorem first_match_split {α : Type} (p : α → Prop) [DecidablePred p] (l : List α) :
    (∀ x ∈ l, ¬ p x) ∨
      ∃ pre b post, l = pre ++ b :: post ∧ (∀ x ∈ pre, ¬ p x) ∧ p b := by
  induction l with
  | nil => left; intro x hx; cases hx
  | cons a rest ih =>
    by_cases ha : p a
    · right; exact ⟨[], a, rest, rfl, fun x hx => (by cases hx), ha⟩
    · rcases ih with hnone | ⟨pre, b, post, hl, hpre, hb⟩
      · left
        intro x hx
        rcases List.mem_cons.mp hx with rfl | hx
        · exact ha
        · exact hnone x hx
      · right
        refine ⟨a :: pre, b, post, by rw [hl]; rfl, ?_, hb⟩
        intro x hx
        rcases List.mem_cons.mp hx with rfl | hx
        · exact ha
        · exact hpre x hx

/-! ## The sale operations, by the position of the first match -/

theorem sellBookToCustomer_none (s : StoreManager) (t : String) (y : Int) (f : Bool)
    (h : ∀ b ∈ s.books, ¬ (b.title = t ∧ b.publicationYear = y)) :
    s.sellBookToCustomer t y f = (s, [Output.bookNotInInventory]) := by
  simp only [StoreManager.sellBookToCustomer, sellBookLoop_none t y f s.cashier s.books h]

theorem sellBookToCustomer_first (s : StoreManager) (t : String) (y : Int) (f : Bool)
    (pre post : List Book) (b : Book) (hs : s.books = pre ++ b :: post)
    (hpre : ∀ x ∈ pre, ¬ (x.title = t ∧ x.publicationYear = y))
    (hb : b.title = t ∧ b.publicationYear = y) :
    s.sellBookToCustomer t y f =
      if 0 < b.numCopies then
        ({ s with
            books := pre ++ { b with numCopies := b.numCopies - 1 } :: post,
            cashier := (s.cashier.receivePayment
              (b.pricePerCopy - if f then (1 / 10) * b.pricePerCopy else 0)).1 },
          [Output.bookSold b, Output.customerType f,
            Output.discountApplied (if f then (1 / 10) * b.pricePerCopy else 0),
            Output.paymentReceived
              (b.pricePerCopy - if f then (1 / 10) * b.pricePerCopy else 0)])
      else (s, [Output.bookOutOfStock]) := by
  obtain ⟨books, magazines, customers, cashier⟩ := s
  simp only at hs
  subst hs
  simp only [StoreManager.sellBookToCustomer, sellBookLoop_skip t y f cashier pre _ hpre]
  simp only [sellBookLoop, if_pos hb]
  by_cases hpos : 0 < b.numCopies
  · have hgt : b.numCopies > 0 := hpos
    simp only [if_pos hpos, if_pos hgt, Option.map_some', Cashier.receivePayment,
      List.cons_append, List.nil_append]
  · have hgt : ¬ b.numCopies > 0 := hpos
    simp only [if_neg hpos, if_neg hgt, Option.map_some']

theorem sellMagazineToCustomer_none (s : StoreManager) (t : String) (y : Int) (f : Bool)
    (h : ∀ m ∈ s.magazines, ¬ (m.title = t ∧ m.publicationYear = y)) :
    s.sellMagazineToCustomer t y f = (s, [Output.magazineNotInInventory]) := by
  simp only [StoreManager.sellMagazineToCustomer,
    sellMagazineLoop_none t y f s.cashier s.magazines h]

theorem sellMagazineToCustomer_first (s : StoreManager) (t : String) (y : Int) (f : Bool)
    (pre post : List Magazine) (m : Magazine) (hs : s.magazines = pre ++ m :: post)
    (hpre : ∀ x ∈ pre, ¬ (x.title = t ∧ x.publicationYear = y))
    (hm : m.title = t ∧ m.publicationYear = y) :
    s.sellMagazineToCustomer t y f =
      if 0 < m.issueNumber then
        ({ s with
            magazines := pre ++ { m with issueNumber := m.issueNumber - 1 } :: post,
            cashier := (s.cashier.receivePayment
              (m.monthlySubscriptionCost -
                if f then (1 / 10) * m.monthlySubscriptionCost else 0)).1 },
          [Output.magazineSold m, Output.customerType f,
            Output.discountApplied (if f then (1 / 10) * m.monthlySubscriptionCost else 0),
            Output.paymentReceived
              (m.monthlySubscriptionCost -
                if f then (1 / 10) * m.monthlySubscriptionCost else 0)])
      else (s, [Output.magazineOutOfStock]) := by
  obtain ⟨books, magazines, customers, cashier⟩ := s
  simp only at hs
  subst hs
  simp only [StoreManager.sellMagazineToCustomer,
    sellMagazineLoop_skip t y f cashier pre _ hpre]
  simp only [sellMagazineLoop, if_pos hm]
  by_cases hpos : 0 < m.issueNumber
  · have hgt : m.issueNumber > 0 := hpos
    simp only [if_pos hpos, if_pos hgt, Option.map_some', Cashier.receivePayment,
      List.cons_append, List.nil_append]
  · have hgt : ¬ m.issueNumber > 0 := hpos
    simp only [if_neg hpos, if_neg hgt, Option.map_some']

/-! ## The intake operations, by the position of the first match -/

theorem addBook_none (s : StoreManager) (book : Book)
    (h : ∀ e ∈ s.books, ¬ (e.title = book.title ∧ e.author = book.author ∧
      e.publicationYear = book.publicationYear)) :
    s.addBook book =
      ({ s with
          books := s.books ++ [book],
          cashier := (s.cashier.reduceMoneyForBook (book.pricePerCopy * book.numCopies)).1 },
        [Output.moneyReducedForBook (book.pricePerCopy * book.numCopies),
          Output.bookAdded]) := by
  simp only [StoreManager.addBook, addBookLoop_none book s.books h,
    Cashier.reduceMoneyForBook, List.cons_append, List.nil_append]

theorem addBook_first (s : StoreManager) (book e : Book) (pre post : List Book)
    (hs : s.books = pre ++ e :: post)
    (hpre : ∀ x ∈ pre, ¬ (x.title = book.title ∧ x.author = book.author ∧
      x.publicationYear = book.publicationYear))
    (he : e.title = book.title ∧ e.author = book.author ∧
      e.publicationYear = book.publicationYear) :
    s.addBook book =
      ({ s with
          books :=
            pre ++ { e with numCopies := wrapInt32 (e.numCopies + book.numCopies) } :: post,
          cashier := (s.cashier.reduceMoneyForBook (book.pricePerCopy * book.numCopies)).1 },
        [Output.copiesUpdated,
          Output.moneyReducedForBook (book.pricePerCopy * book.numCopies)]) := by
  simp only [StoreManager.addBook, hs, addBookLoop_first book e pre post hpre he,
    Cashier.reduceMoneyForBook]

theorem addMagazine_none (s : StoreManager) (magazine : Magazine)
    (h : ∀ e ∈ s.magazines, ¬ (e.title = magazine.title ∧ e.author = magazine.author ∧
      e.publicationYear = magazine.publicationYear)) :
    s.addMagazine magazine =
      ({ s with
          magazines := s.magazines ++ [magazine],
          cashier := (s.cashier.reduceMoneyForMagazine magazine.monthlySubscriptionCost).1 },
        [Output.moneyReducedForMagazine magazine.monthlySubscriptionCost,
          Output.magazineAdded]) := by
  simp only [StoreManager.addMagazine, addMagazineLoop_none magazine s.magazines h,
    Cashier.reduceMoneyForMagazine, List.cons_append, List.nil_append]

theorem addMagazine_first (s : StoreManager) (magazine e : Magazine)
    (pre post : List Magazine) (hs : s.magazines = pre ++ e :: post)
    (hpre : ∀ x ∈ pre, ¬ (x.title = magazine.title ∧ x.author = magazine.author ∧
      x.publicationYear = magazine.publicationYear))
    (he : e.title = magazine.title ∧ e.author = magazine.author ∧
      e.publicationYear = magazine.publicationYear) :
    s.addMagazine magazine =
      ({ s with
          magazines :=
            pre ++
              { e with issueNumber := wrapInt32 (e.issueNumber + magazine.issueNumber) } :: post,
          cashier := (s.cashier.reduceMoneyForMagazine magazine.monthlySubscriptionCost).1 },
        [Output.issueUpdated,
          Output.moneyReducedForMagazine magazine.monthlySubscriptionCost]) := by
  simp only [StoreManager.addMagazine, hs, addMagazineLoop_first magazine e pre post hpre he,
    Cashier.reduceMoneyForMagazine]

theorem addBook_cashier (s : StoreManager) (book : Book) :
    (s.addBook book).1.cashier =
      (s.cashier.reduceMoneyForBook (book.pricePerCopy * book.numCopies)).1 := by
  unfold StoreManager.addBook
  cases addBookLoop book s.books <;> rfl

theorem addMagazine_cashier (s : StoreManager) (magazine : Magazine) :
    (s.addMagazine magazine).1.cashier =
      (s.cashier.reduceMoneyForMagazine magazine.monthlySubscriptionCost).1 := by
  unfold StoreManager.addMagazine
  cases addMagazineLoop magazine s.magazines <;> rfl

/-! ## What a sale does to every entry -/

theorem sellBook_entrywise (s : StoreManager) (t : String) (y : Int) (f : Bool) :
    List.Forall₂
      (fun b b2 : Book => b2.toPublication = b.toPublication ∧
        b2.pricePerCopy = b.pricePerCopy ∧
        (b2.numCopies = b.numCopies ∨ (0 < b.numCopies ∧ b2.numCopies = b.numCopies - 1)))
      s.books (s.sellBookToCustomer t y f).1.books := by
  rcases first_match_split (fun b : Book => b.title = t ∧ b.publicationYear = y) s.books with
    hnone | ⟨pre, b, post, hs, hpre, hb⟩
  · rw [sellBookToCustomer_none s t y f hnone]
    exact List.forall₂_same.mpr fun x _ => ⟨rfl, rfl, Or.inl rfl⟩
  · rw [sellBookToCustomer_first s t y f pre post b hs hpre hb]
    by_cases hpos : 0 < b.numCopies
    · rw [if_pos hpos, hs]
      refine List.rel_append (List.forall₂_same.mpr fun x _ => ⟨rfl, rfl, Or.inl rfl⟩) ?_
      exact List.Forall₂.cons ⟨rfl, rfl, Or.inr ⟨hpos, rfl⟩⟩
        (List.forall₂_same.mpr fun x _ => ⟨rfl, rfl, Or.inl rfl⟩)
    · rw [if_neg hpos]
      exact List.forall₂_same.mpr fun x _ => ⟨rfl, rfl, Or.inl rfl⟩

theorem sellMagazine_entrywise (s : StoreManager) (t : String) (y : Int) (f : Bool) :
    List.Forall₂
      (fun m m2 : Magazine => m2.toPublication = m.toPublication ∧ m2.genre = m.genre ∧
        m2.monthlySubscriptionCost = m.monthlySubscriptionCost ∧
        (m2.issueNumber = m.issueNumber ∨
          (0 < m.issueNumber ∧ m2.issueNumber = m.issueNumber - 1)))
      s.magazines (s.sellMagazineToCustomer t y f).1.magazines := by
  rcases first_match_split (fun m : Magazine => m.title = t ∧ m.publicationYear = y)
      s.magazines with hnone | ⟨pre, m, post, hs, hpre, hm⟩
  · rw [sellMagazineToCustomer_none s t y f hnone]
    exact List.forall₂_same.mpr fun x _ => ⟨rfl, rfl, rfl, Or.inl rfl⟩
  · rw [sellMagazineToCustomer_first s t y f pre post m hs hpre hm]
    by_cases hpos : 0 < m.issueNumber
    · rw [if_pos hpos, hs]
      refine List.rel_append
        (List.forall₂_same.mpr fun x _ => ⟨rfl, rfl, rfl, Or.inl rfl⟩) ?_
      exact List.Forall₂.cons ⟨rfl, rfl, rfl, Or.inr ⟨hpos, rfl⟩⟩
        (List.forall₂_same.mpr fun x _ => ⟨rfl, rfl, rfl, Or.inl rfl⟩)
    · rw [if_neg hpos]
      exact List.forall₂_same.mpr fun x _ => ⟨rfl, rfl, rfl, Or.inl rfl⟩

theorem sellBook_frame (s : StoreManager) (t : String) (y : Int) (f : Bool) :
    (s.sellBookToCustomer t y f).1.magazines = s.magazines ∧
      (s.sellBookToCustomer t y f).1.customers = s.customers ∧
      (s.sellBookToCustomer t y f).1.cashier.initialMoney = s.cashier.initialMoney := by
  rcases first_match_split (fun b : Book => b.title = t ∧ b.publicationYear = y) s.books with
    hnone | ⟨pre, b, post, hs, hpre, hb⟩
  · rw [sellBookToCustomer_none s t y f hnone]
    exact ⟨rfl, rfl, rfl⟩
  · rw [sellBookToCustomer_first s t y f pre post b hs hpre hb]
    split <;> exact ⟨rfl, rfl, rfl⟩

theorem sellMagazine_frame (s : StoreManager) (t : String) (y : Int) (f : Bool) :
    (s.sellMagazineToCustomer t y f).1.books = s.books ∧
      (s.sellMagazineToCustomer t y f).1.customers = s.customers ∧
      (s.sellMagazineToCustomer t y f).1.cashier.initialMoney = s.cashier.initialMoney := by
  rcases first_match_split (fun m : Magazine => m.title = t ∧ m.publicationYear = y)
      s.magazines with hnone | ⟨pre, m, post, hs, hpre, hm⟩
  · rw [sellMagazineToCustomer_none s t y f hnone]
    exact ⟨rfl, rfl, rfl⟩
  · rw [sellMagazineToCustomer_first s t y f pre post m hs hpre hm]
    split <;> exact ⟨rfl, rfl, rfl⟩

/-! ## Repeated intake under one key -/

theorem wrapInt32_of_inRange (x : Int) (h : INT_MIN ≤ x ∧ x ≤ INT_MAX) : wrapInt32 x = x := by
  unfold INT_MIN INT_MAX at h
  unfold wrapInt32
  omega

theorem wrapInt32_add_wrapInt32 (a b : Int) :
    wrapInt32 (wrapInt32 a + b) = wrapInt32 (a + b) := by
  unfold wrapInt32
  omega

theorem foldl_wrapInt32 (l : List Int) :
    ∀ a : Int, l ≠ [] →
      l.foldl (fun acc x => wrapInt32 (acc + x)) a = wrapInt32 (a + l.sum) := by
  induction l with
  | nil => intro a h; exact absurd rfl h
  | cons x rest ih =>
    intro a _
    cases rest with
    | nil => simp
    | cons z rest2 =>
      rw [List.foldl_cons, ih (wrapInt32 (a + x)) (List.cons_ne_nil z rest2),
        wrapInt32_add_wrapInt32, List.sum_cons (a := x), add_assoc]

theorem run_cons (s : StoreManager) (op : Op) (ops : List Op) :
    run s (op :: ops) =
      ((run (step s op).1 ops).1, (step s op).2 ++ (run (step s op).1 ops).2) := rfl

theorem run_addBook_same_key (t a : String) (y : Int) (pre : List Book)
    (hpre : ∀ x ∈ pre, ¬ (x.title = t ∧ x.author = a ∧ x.publicationYear = y)) :
    ∀ cs : List Book, (∀ c ∈ cs, c.title = t ∧ c.author = a ∧ c.publicationYear = y) →
      ∀ (s : StoreManager) (e : Book), s.books = pre ++ [e] →
        (e.title = t ∧ e.author = a ∧ e.publicationYear = y) →
        ∃ e2 : Book, (run s (cs.map Op.addBook)).1.books = pre ++ [e2] ∧
          e2.toPublication = e.toPublication ∧ e2.pricePerCopy = e.pricePerCopy ∧
          e2.numCopies =
            (cs.map fun c => c.numCopies).foldl (fun acc x => wrapInt32 (acc + x))
              e.numCopies := by
  intro cs
  induction cs with
  | nil =>
    intro _ s e hs _
    exact ⟨e, hs, rfl, rfl, rfl⟩
  | cons c rest ih =>
    intro hkey s e hs he
    obtain ⟨ht, ha, hy⟩ := hkey c (List.mem_cons_self c rest)
    have hpre2 : ∀ x ∈ pre, ¬ (x.title = c.title ∧ x.author = c.author ∧
        x.publicationYear = c.publicationYear) := by
      rw [ht, ha, hy]; exact hpre
    have he2 : e.title = c.title ∧ e.author = c.author ∧
        e.publicationYear = c.publicationYear := by
      rw [ht, ha, hy]; exact he
    have hstep := addBook_first s c e pre [] hs hpre2 he2
    have hbooks : (s.addBook c).1.books =
        pre ++ [{ e with numCopies := wrapInt32 (e.numCopies + c.numCopies) }] := by
      rw [hstep]
    obtain ⟨e2, h1, h2, h3, h4⟩ :=
      ih (fun z hz => hkey z (List.mem_cons_of_mem c hz)) (s.addBook c).1
        { e with numCopies := wrapInt32 (e.numCopies + c.numCopies) } hbooks he
    refine ⟨e2, ?_, h2, h3, ?_⟩
    · rw [List.map_cons, run_cons]; exact h1
    · rw [h4, List.map_cons, List.foldl_cons]

theorem run_addMagazine_same_key (t a : String) (y : Int) (pre : List Magazine)
    (hpre : ∀ x ∈ pre, ¬ (x.title = t ∧ x.author = a ∧ x.publicationYear = y)) :
    ∀ cs : List Magazine, (∀ c ∈ cs, c.title = t ∧ c.author = a ∧ c.publicationYear = y) →
      ∀ (s : StoreManager) (e : Magazine), s.magazines = pre ++ [e] →
        (e.title = t ∧ e.author = a ∧ e.publicationYear = y) →
        ∃ e2 : Magazine, (run s (cs.map Op.addMagazine)).1.magazines = pre ++ [e2] ∧
          e2.toPublication = e.toPublication ∧ e2.genre = e.genre ∧
          e2.monthlySubscriptionCost = e.monthlySubscriptionCost ∧
          e2.issueNumber =
            (cs.map fun c => c.issueNumber).foldl (fun acc x => wrapInt32 (acc + x))
              e.issueNumber := by
  intro cs
  induction cs with
  | nil =>
    intro _ s e hs _
    exact ⟨e, hs, rfl, rfl, rfl, rfl⟩
  | cons c rest ih =>
    intro hkey s e hs he
    obtain ⟨ht, ha, hy⟩ := hkey c (List.mem_cons_self c rest)
    have hpre2 : ∀ x ∈ pre, ¬ (x.title = c.title ∧ x.author = c.author ∧
        x.publicationYear = c.publicationYear) := by
      rw [ht, ha, hy]; exact hpre
    have he2 : e.title = c.title ∧ e.author = c.author ∧
        e.publicationYear = c.publicationYear := by
      rw [ht, ha, hy]; exact he
    have hstep := addMagazine_first s c e pre [] hs hpre2 he2
    have hmags : (s.addMagazine c).1.magazines =
        pre ++ [{ e with issueNumber := wrapInt32 (e.issueNumber + c.issueNumber) }] := by
      rw [hstep]
    obtain ⟨e2, h1, h2, h3, h4, h5⟩ :=
      ih (fun z hz => hkey z (List.mem_cons_of_mem c hz)) (s.addMagazine c).1
        { e with issueNumber := wrapInt32 (e.issueNumber + c.issueNumber) } hmags he
    refine ⟨e2, ?_, h2, h3, h4, ?_⟩
    · rw [List.map_cons, run_cons]; exact h1
    · rw [h5, List.map_cons, List.foldl_cons]

theorem foldl_wrapInt32_of_sum_inRange (x : Int) (rest : List Int)
    (h : INT_MIN ≤ (x :: rest).sum ∧ (x :: rest).sum ≤ INT_MAX) :
    rest.foldl (fun acc z => wrapInt32 (acc + z)) x = (x :: rest).sum := by
  cases rest with
  | nil => simp
  | cons z rest2 =>
    rw [foldl_wrapInt32 (z :: rest2) x (List.cons_ne_nil z rest2), ← List.sum_cons]
    exact wrapInt32_of_inRange _ h

/-! ## Claims on sequences of intakes -/

/-- C1, as stated, fails: taking in 2147483647 copies and then 1 copy of the same book
leaves one entry of that key, but its `numCopies` is -2147483648, not the sum
2147483648 of the candidates' copies, which no `int` can hold. -/
theorem addBook_merge_sum_counterexample :
    (run emptyStore
        ([{ duneHerbert with numCopies := 2147483647 },
          { duneHerbert with numCopies := 1 }].map Op.addBook)).1.books =
      [{ duneHerbert with numCopies := -2147483648 }] ∧
    ([{ duneHerbert with numCopies := 2147483647 },
      { duneHerbert with numCopies := 1 }].map fun c => c.numCopies).sum = 2147483648 ∧
    ¬ ∃ e : Book,
      (run emptyStore
          ([{ duneHerbert with numCopies := 2147483647 },
            { duneHerbert with numCopies := 1 }].map Op.addBook)).1.books.filter
          (fun b => decide (b.title = "Dune" ∧ b.author = "Herbert" ∧
            b.publicationYear = 1965)) = [e] ∧
      e.numCopies = ([{ duneHerbert with numCopies := 2147483647 },
        { duneHerbert with numCopies := 1 }].map fun c => c.numCopies).sum := by
  refine ⟨by decide, by decide, ?_⟩
  rintro ⟨e, hfilter, hsum⟩
  have hb : (run emptyStore
      ([{ duneHerbert with numCopies := 2147483647 },
        { duneHerbert with numCopies := 1 }].map Op.addBook)).1.books.filter
      (fun b => decide (b.title = "Dune" ∧ b.author = "Herbert" ∧
        b.publicationYear = 1965)) = [{ duneHerbert with numCopies := -2147483648 }] := by
    decide
  rw [hb] at hfilter
  have he : e = { duneHerbert with numCopies := -2147483648 } :=
    (List.cons.inj hfilter).1.symm
  rw [he] at hsum
  revert hsum
  decide

/-- C1, amended. Merge invariant for books: when the store holds no book with key
`(t, a, y)` and a non-empty list of candidates, all with title `t`, author `a` and year
`y`, is given to `addBook` in order, the store ends with exactly one book entry of that
key, placed after the entries it had; and provided the sum of the `numCopies` of all
the candidates lies in the range of a 32-bit `int` (`INT_MIN .. INT_MAX`), the
`numCopies` of that entry is this sum. -/
theorem addBook_merge_sums_copies (s : StoreManager) (t a : String) (y : Int)
    (cs : List Book)
    (hfresh : ∀ b ∈ s.books, ¬ (b.title = t ∧ b.author = a ∧ b.publicationYear = y))
    (hne : cs ≠ [])
    (hkey : ∀ c ∈ cs, c.title = t ∧ c.author = a ∧ c.publicationYear = y) :
    ∃ e : Book,
      (run s (cs.map Op.addBook)).1.books = s.books ++ [e] ∧
      (run s (cs.map Op.addBook)).1.books.filter
          (fun b => decide (b.title = t ∧ b.author = a ∧ b.publicationYear = y)) = [e] ∧
      (INT_MIN ≤ (cs.map fun c => c.numCopies).sum ∧
          (cs.map fun c => c.numCopies).sum ≤ INT_MAX →
        e.numCopies = (cs.map fun c => c.numCopies).sum) := by
  cases cs with
  | nil => exact absurd rfl hne
  | cons c rest =>
    obtain ⟨ht, ha, hy⟩ := hkey c (List.mem_cons_self c rest)
    have hfresh2 : ∀ b ∈ s.books, ¬ (b.title = c.title ∧ b.author = c.author ∧
        b.publicationYear = c.publicationYear) := by
      rw [ht, ha, hy]; exact hfresh
    have hbooks : (s.addBook c).1.books = s.books ++ [c] := by
      rw [addBook_none s c hfresh2]
    obtain ⟨e, h1, h2, -, h4⟩ :=
      run_addBook_same_key t a y s.books hfresh rest
        (fun z hz => hkey z (List.mem_cons_of_mem c hz)) (s.addBook c).1 c hbooks
        ⟨ht, ha, hy⟩
    have hrun : (run s ((c :: rest).map Op.addBook)).1.books = s.books ++ [e] := by
      rw [List.map_cons, run_cons]; exact h1
    have hek : e.title = t ∧ e.author = a ∧ e.publicationYear = y := by
      have h5 : e.title = c.title := congrArg Publication.title h2
      have h6 : e.author = c.author := congrArg Publication.author h2
      have h7 : e.publicationYear = c.publicationYear :=
        congrArg Publication.publicationYear h2
      exact ⟨h5.trans ht, h6.trans ha, h7.trans hy⟩
    refine ⟨e, hrun, ?_, ?_⟩
    · rw [hrun, List.filter_append]
      have hnil : s.books.filter
          (fun b => decide (b.title = t ∧ b.author = a ∧ b.publicationYear = y)) = [] := by
        rw [List.filter_eq_nil_iff]
        intro b hb
        simpa using hfresh b hb
      rw [hnil, List.nil_append]
      simp [List.filter, hek]
    · intro hrange
      rw [List.map_cons] at hrange
      rw [h4, List.map_cons]
      exact foldl_wrapInt32_of_sum_inRange c.numCopies (rest.map fun c => c.numCopies) hrange

theorem addBook_merge_sums_copies_witness :
    ∃ e : Book,
      (run emptyStore ([duneHerbert, { duneHerbert with numCopies := 7 }].map Op.addBook)).1.books =
        emptyStore.books ++ [e] ∧
      (run emptyStore
            ([duneHerbert, { duneHerbert with numCopies := 7 }].map Op.addBook)).1.books.filter
          (fun b => decide (b.title = "Dune" ∧ b.author = "Herbert" ∧
            b.publicationYear = 1965)) = [e] ∧
      e.numCopies = ([duneHerbert, { duneHerbert with numCopies := 7 }].map
        fun c => c.numCopies).sum := by
  obtain ⟨e, h1, h2, h3⟩ := addBook_merge_sums_copies emptyStore "Dune" "Herbert" 1965
    [duneHerbert, { duneHerbert with numCopies := 7 }] (by decide) (by decide) (by decide)
  exact ⟨e, h1, h2, h3 (by decide)⟩

/-- C2, as stated, fails: taking in issue number 2147483647 and then issue number 1 of the
same magazine leaves one entry of that key, but its `issueNumber` is -2147483648, not
the sum 2147483648 of the candidates' issue numbers, which no `int` can hold. -/
theorem addMagazine_merge_sum_counterexample :
    (run emptyStore
        ([{ wiredMagazine with issueNumber := 2147483647 },
          { wiredMagazine with issueNumber := 1 }].map Op.addMagazine)).1.magazines =
      [{ wiredMagazine with issueNumber := -2147483648 }] ∧
    ([{ wiredMagazine with issueNumber := 2147483647 },
      { wiredMagazine with issueNumber := 1 }].map fun c => c.issueNumber).sum = 2147483648 ∧
    ¬ ∃ e : Magazine,
      (run emptyStore
          ([{ wiredMagazine with issueNumber := 2147483647 },
            { wiredMagazine with issueNumber := 1 }].map Op.addMagazine)).1.magazines.filter
          (fun m => decide (m.title = "Wired" ∧ m.author = "Conde" ∧
            m.publicationYear = 2020)) = [e] ∧
      e.issueNumber = ([{ wiredMagazine with issueNumber := 2147483647 },
        { wiredMagazine with issueNumber := 1 }].map fun c => c.issueNumber).sum := by
  refine ⟨by decide, by decide, ?_⟩
  rintro ⟨e, hfilter, hsum⟩
  have hb : (run emptyStore
      ([{ wiredMagazine with issueNumber := 2147483647 },
        { wiredMagazine with issueNumber := 1 }].map Op.addMagazine)).1.magazines.filter
      (fun m => decide (m.title = "Wired" ∧ m.author = "Conde" ∧
        m.publicationYear = 2020)) = [{ wiredMagazine with issueNumber := -2147483648 }] := by
    decide
  rw [hb] at hfilter
  have he : e = { wiredMagazine with issueNumber := -2147483648 } :=
    (List.cons.inj hfilter).1.symm
  rw [he] at hsum
  revert hsum
  decide

/-- C2, amended. Merge invariant for magazines: when the store holds no magazine with key
`(t, a, y)` and a non-empty list of candidates, all with title `t`, author `a` and year
`y`, is given to `addMagazine` in order, the store ends with exactly one magazine entry
of that key, placed after the entries it had; and provided the sum of the `issueNumber`
values of all the candidates lies in the range of a 32-bit `int`
(`INT_MIN .. INT_MAX`), the `issueNumber` of that entry is this sum. -/
theorem addMagazine_merge_sums_issues (s : StoreManager) (t a : String) (y : Int)
    (cs : List Magazine)
    (hfresh : ∀ m ∈ s.magazines, ¬ (m.title = t ∧ m.author = a ∧ m.publicationYear = y))
    (hne : cs ≠ [])
    (hkey : ∀ c ∈ cs, c.title = t ∧ c.author = a ∧ c.publicationYear = y) :
    ∃ e : Magazine,
      (run s (cs.map Op.addMagazine)).1.magazines = s.magazines ++ [e] ∧
      (run s (cs.map Op.addMagazine)).1.magazines.filter
          (fun m => decide (m.title = t ∧ m.author = a ∧ m.publicationYear = y)) = [e] ∧
      (INT_MIN ≤ (cs.map fun c => c.issueNumber).sum ∧
          (cs.map fun c => c.issueNumber).sum ≤ INT_MAX →
        e.issueNumber = (cs.map fun c => c.issueNumber).sum) := by
  cases cs with
  | nil => exact absurd rfl hne
  | cons c rest =>
    obtain ⟨ht, ha, hy⟩ := hkey c (List.mem_cons_self c rest)
    have hfresh2 : ∀ m ∈ s.magazines, ¬ (m.title = c.title ∧ m.author = c.author ∧
        m.publicationYear = c.publicationYear) := by
      rw [ht, ha, hy]; exact hfresh
    have hmags : (s.addMagazine c).1.magazines = s.magazines ++ [c] := by
      rw [addMagazine_none s c hfresh2]
    obtain ⟨e, h1, h2, -, -, h4⟩ :=
      run_addMagazine_same_key t a y s.magazines hfresh rest
        (fun z hz => hkey z (List.mem_cons_of_mem c hz)) (s.addMagazine c).1 c hmags
        ⟨ht, ha, hy⟩
    have hrun : (run s ((c :: rest).map Op.addMagazine)).1.magazines = s.magazines ++ [e] := by
      rw [List.map_cons, run_cons]; exact h1
    have hek : e.title = t ∧ e.author = a ∧ e.publicationYear = y := by
      have h5 : e.title = c.title := congrArg Publication.title h2
      have h6 : e.author = c.author := congrArg Publication.author h2
      have h7 : e.publicationYear = c.publicationYear :=
        congrArg Publication.publicationYear h2
      exact ⟨h5.trans ht, h6.trans ha, h7.trans hy⟩
    refine ⟨e, hrun, ?_, ?_⟩
    · rw [hrun, List.filter_append]
      have hnil : s.magazines.filter
          (fun m => decide (m.title = t ∧ m.author = a ∧ m.publicationYear = y)) = [] := by
        rw [List.filter_eq_nil_iff]
        intro m hm
        simpa using hfresh m hm
      rw [hnil, List.nil_append]
      simp [List.filter, hek]
    · intro hrange
      rw [List.map_cons] at hrange
      rw [h4, List.map_cons]
      exact foldl_wrapInt32_of_sum_inRange c.issueNumber (rest.map fun c => c.issueNumber)
        hrange

theorem addMagazine_merge_sums_issues_witness :
    ∃ e : Magazine,
      (run emptyStore
          ([wiredMagazine, { wiredMagazine with issueNumber := 5 }].map
            Op.addMagazine)).1.magazines = emptyStore.magazines ++ [e] ∧
      (run emptyStore
            ([wiredMagazine, { wiredMagazine with issueNumber := 5 }].map
              Op.addMagazine)).1.magazines.filter
          (fun m => decide (m.title = "Wired" ∧ m.author = "Conde" ∧
            m.publicationYear = 2020)) = [e] ∧
      e.issueNumber = ([wiredMagazine, { wiredMagazine with issueNumber := 5 }].map
        fun c => c.issueNumber).sum := by
  obtain ⟨e, h1, h2, h3⟩ := addMagazine_merge_sums_issues emptyStore "Wired" "Conde" 2020
    [wiredMagazine, { wiredMagazine with issueNumber := 5 }]
    (by decide) (by decide) (by decide)
  exact ⟨e, h1, h2, h3 (by decide)⟩

/-! ## The cash ledger -/

theorem find?_first_match {α : Type} (p : α → Prop) [DecidablePred p] (pre post : List α)
    (b : α) (hpre : ∀ x ∈ pre, ¬ p x) (hb : p b) :
    (pre ++ b :: post).find? (fun x => decide (p x)) = some b := by
  induction pre with
  | nil => simp [hb]
  | cons x xs ih =>
    have hx := hpre x (List.mem_cons_self x xs)
    have hr := ih fun z hz => hpre z (List.mem_cons_of_mem x hz)
    rw [List.cons_append, List.find?_cons_of_neg _ (by simpa using hx)]
    exact hr

theorem find?_no_match {α : Type} (p : α → Prop) [DecidablePred p] (l : List α)
    (h : ∀ x ∈ l, ¬ p x) : l.find? (fun x => decide (p x)) = none := by
  rw [List.find?_eq_none]
  intro x hx
  simpa using h x hx

theorem step_moneyPaidByCustomer (s : StoreManager) (op : Op) :
    (step s op).1.cashier.moneyPaidByCustomer =
      s.cashier.moneyPaidByCustomer + specSalePrice s op := by
  cases op with
  | addBook book =>
    show (s.addBook book).1.cashier.moneyPaidByCustomer = _
    rw [addBook_cashier]
    simp [specSalePrice, Cashier.reduceMoneyForBook]
  | addMagazine magazine =>
    show (s.addMagazine magazine).1.cashier.moneyPaidByCustomer = _
    rw [addMagazine_cashier]
    simp [specSalePrice, Cashier.reduceMoneyForMagazine]
  | registerCustomer customer =>
    simp [step, specSalePrice, StoreManager.registerCustomer]
  | sellBook t y f =>
    show (s.sellBookToCustomer t y f).1.cashier.moneyPaidByCustomer = _
    rcases first_match_split (fun b : Book => b.title = t ∧ b.publicationYear = y) s.books
      with hnone | ⟨pre, b, post, hs, hpre, hb⟩
    · rw [sellBookToCustomer_none s t y f hnone]
      simp only [specSalePrice]
      rw [find?_no_match (fun b : Book => b.title = t ∧ b.publicationYear = y) s.books hnone]
      simp
    · rw [sellBookToCustomer_first s t y f pre post b hs hpre hb]
      simp only [specSalePrice]
      rw [hs, find?_first_match (fun b : Book => b.title = t ∧ b.publicationYear = y)
        pre post b hpre hb]
      by_cases hpos : 0 < b.numCopies
      · simp only [if_pos hpos, Cashier.receivePayment]
      · simp only [if_neg hpos, add_zero]
  | sellMagazine t y f =>
    show (s.sellMagazineToCustomer t y f).1.cashier.moneyPaidByCustomer = _
    rcases first_match_split (fun m : Magazine => m.title = t ∧ m.publicationYear = y)
      s.magazines with hnone | ⟨pre, m, post, hs, hpre, hm⟩
    · rw [sellMagazineToCustomer_none s t y f hnone]
      simp only [specSalePrice]
      rw [find?_no_match (fun m : Magazine => m.title = t ∧ m.publicationYear = y)
        s.magazines hnone]
      simp
    · rw [sellMagazineToCustomer_first s t y f pre post m hs hpre hm]
      simp only [specSalePrice]
      rw [hs, find?_first_match (fun m : Magazine => m.title = t ∧ m.publicationYear = y)
        pre post m hpre hm]
      by_cases hpos : 0 < m.issueNumber
      · simp only [if_pos hpos, Cashier.receivePayment]
      · simp only [if_neg hpos, add_zero]

theorem step_initialMoney (s : StoreManager) (op : Op) :
    (step s op).1.cashier.initialMoney = s.cashier.initialMoney - specIntakeDebit op := by
  cases op with
  | addBook book =>
    show (s.addBook book).1.cashier.initialMoney = _
    rw [addBook_cashier]
    rfl
  | addMagazine magazine =>
    show (s.addMagazine magazine).1.cashier.initialMoney = _
    rw [addMagazine_cashier]
    rfl
  | registerCustomer customer =>
    simp [step, specIntakeDebit, StoreManager.registerCustomer]
  | sellBook t y f =>
    show (s.sellBookToCustomer t y f).1.cashier.initialMoney = _
    rw [(sellBook_frame s t y f).2.2]
    simp [specIntakeDebit]
  | sellMagazine t y f =>
    show (s.sellMagazineToCustomer t y f).1.cashier.initialMoney = _
    rw [(sellMagazine_frame s t y f).2.2]
    simp [specIntakeDebit]

theorem run_cashier (ops : List Op) :
    ∀ s : StoreManager,
      (run s ops).1.cashier.moneyPaidByCustomer =
          s.cashier.moneyPaidByCustomer + specSalesTotal s ops ∧
        (run s ops).1.cashier.initialMoney =
          s.cashier.initialMoney - (ops.map specIntakeDebit).sum := by
  induction ops with
  | nil =>
    intro s
    simp [run, specSalesTotal]
  | cons op rest ih =>
    intro s
    obtain ⟨h1, h2⟩ := ih (step s op).1
    rw [run_cons]
    refine ⟨?_, ?_⟩
    · rw [h1, step_moneyPaidByCustomer]
      simp only [specSalesTotal]
      ring
    · rw [h2, step_initialMoney, List.map_cons, List.sum_cons]
      ring

/-! ## Claims on sequences of calls -/

/-- C3. Cash conservation: starting from the empty store with a cashier holding
`initialMoney = c0` and `moneyPaidByCustomer = 0`, after every finite sequence of
`addBook`, `addMagazine`, `sellBookToCustomer`, `sellMagazineToCustomer` and
`registerCustomer` calls, `moneyPaidByCustomer` is the sum of the final prices of the
sales that succeeded, and `initialMoney` is `c0` minus the sum of the intake debits
(`pricePerCopy * numCopies` per `addBook` call, `monthlySubscriptionCost` per
`addMagazine` call), money being exact rationals. -/
theorem cash_conservation (c0 : ℚ) (ops : List Op) :
    (run (StoreManager.new (Cashier.new c0)) ops).1.cashier.moneyPaidByCustomer =
        specSalesTotal (StoreManager.new (Cashier.new c0)) ops ∧
      (run (StoreManager.new (Cashier.new c0)) ops).1.cashier.initialMoney =
        c0 - (ops.map specIntakeDebit).sum := by
  obtain ⟨h1, h2⟩ := run_cashier ops (StoreManager.new (Cashier.new c0))
  refine ⟨?_, h2⟩
  rw [h1]
  simp [StoreManager.new, Cashier.new]

/-! ## Claims on single calls -/

/-- C4. Stock monotonicity: for every state and every call of `sellBookToCustomer` or
`sellMagazineToCustomer`, the entries after the call stand position by position against
the entries before it, and no entry (book or magazine) whose stock gauge was
non-negative before the call has a negative gauge after it; and when the first entry
with the requested title and year has gauge 0, the call writes the out-of-stock message
and leaves the list as it was, so that entry still has gauge 0. -/
theorem sale_never_makes_gauge_negative (s : StoreManager) (t : String) (y : Int) (f : Bool) :
    (List.Forall₂ (fun b b2 : Book => 0 ≤ b.numCopies → 0 ≤ b2.numCopies)
        s.books (s.sellBookToCustomer t y f).1.books ∧
      (s.sellBookToCustomer t y f).1.magazines = s.magazines) ∧
    (List.Forall₂ (fun m m2 : Magazine => 0 ≤ m.issueNumber → 0 ≤ m2.issueNumber)
        s.magazines (s.sellMagazineToCustomer t y f).1.magazines ∧
      (s.sellMagazineToCustomer t y f).1.books = s.books) ∧
    (∀ (pre post : List Book) (b : Book), s.books = pre ++ b :: post →
      (∀ x ∈ pre, ¬ (x.title = t ∧ x.publicationYear = y)) →
      (b.title = t ∧ b.publicationYear = y) → b.numCopies = 0 →
      (s.sellBookToCustomer t y f).2 = [Output.bookOutOfStock] ∧
        (s.sellBookToCustomer t y f).1.books = pre ++ b :: post) ∧
    (∀ (pre post : List Magazine) (m : Magazine), s.magazines = pre ++ m :: post →
      (∀ x ∈ pre, ¬ (x.title = t ∧ x.publicationYear = y)) →
      (m.title = t ∧ m.publicationYear = y) → m.issueNumber = 0 →
      (s.sellMagazineToCustomer t y f).2 = [Output.magazineOutOfStock] ∧
        (s.sellMagazineToCustomer t y f).1.magazines = pre ++ m :: post) := by
  refine ⟨⟨?_, (sellBook_frame s t y f).1⟩, ⟨?_, (sellMagazine_frame s t y f).1⟩, ?_, ?_⟩
  · refine (sellBook_entrywise s t y f).imp ?_
    rintro b b2 ⟨-, -, h | ⟨hpos, h⟩⟩ hb <;> omega
  · refine (sellMagazine_entrywise s t y f).imp ?_
    rintro m m2 ⟨-, -, -, h | ⟨hpos, h⟩⟩ hm <;> omega
  · intro pre post b hs hpre hb hzero
    have hnot : ¬ 0 < b.numCopies := by omega
    rw [sellBookToCustomer_first s t y f pre post b hs hpre hb, if_neg hnot]
    exact ⟨rfl, hs⟩
  · intro pre post m hs hpre hm hzero
    have hnot : ¬ 0 < m.issueNumber := by omega
    rw [sellMagazineToCustomer_first s t y f pre post m hs hpre hm, if_neg hnot]
    exact ⟨rfl, hs⟩

theorem sale_never_makes_gauge_negative_witness :
    (soldOutStore.sellBookToCustomer "Dune" 1965 true).2 = [Output.bookOutOfStock] ∧
      (soldOutStore.sellBookToCustomer "Dune" 1965 true).1.books =
        [] ++ [{ duneHerbert with numCopies := 0 }] :=
  (sale_never_makes_gauge_negative soldOutStore "Dune" 1965 true).2.2.1
    [] [] { duneHerbert with numCopies := 0 } rfl (by decide) (by decide) (by decide)

/-- C5. Discount correctness: whenever a sale succeeds, that is, the first entry with the
requested title and year has a positive stock gauge, with price base `P`
(`pricePerCopy` of the book, `monthlySubscriptionCost` of the magazine), the amount
announced as discount is `P / 10` for an old customer and `0` for a new one, and the
amount given to `receivePayment`, announced as received and added to
`moneyPaidByCustomer`, is `P - P / 10 = 9 / 10 * P` for an old customer and exactly
`P` for a new one. -/
theorem sale_discount_is_a_tenth (s : StoreManager) (t : String) (y : Int) (f : Bool) :
    (∀ (pre post : List Book) (b : Book), s.books = pre ++ b :: post →
      (∀ x ∈ pre, ¬ (x.title = t ∧ x.publicationYear = y)) →
      (b.title = t ∧ b.publicationYear = y) → 0 < b.numCopies →
      (s.sellBookToCustomer t y f).2 =
          [Output.bookSold b, Output.customerType f,
            Output.discountApplied (if f then (1 / 10) * b.pricePerCopy else 0),
            Output.paymentReceived (if f then (9 / 10) * b.pricePerCopy else b.pricePerCopy)] ∧
        (s.sellBookToCustomer t y f).1.cashier =
          (s.cashier.receivePayment
            (if f then (9 / 10) * b.pricePerCopy else b.pricePerCopy)).1 ∧
        (if f then (9 / 10) * b.pricePerCopy else b.pricePerCopy) =
          b.pricePerCopy - (if f then (1 / 10) * b.pricePerCopy else 0)) ∧
    (∀ (pre post : List Magazine) (m : Magazine), s.magazines = pre ++ m :: post →
      (∀ x ∈ pre, ¬ (x.title = t ∧ x.publicationYear = y)) →
      (m.title = t ∧ m.publicationYear = y) → 0 < m.issueNumber →
      (s.sellMagazineToCustomer t y f).2 =
          [Output.magazineSold m, Output.customerType f,
            Output.discountApplied (if f then (1 / 10) * m.monthlySubscriptionCost else 0),
            Output.paymentReceived
              (if f then (9 / 10) * m.monthlySubscriptionCost
                else m.monthlySubscriptionCost)] ∧
        (s.sellMagazineToCustomer t y f).1.cashier =
          (s.cashier.receivePayment
            (if f then (9 / 10) * m.monthlySubscriptionCost
              else m.monthlySubscriptionCost)).1 ∧
        (if f then (9 / 10) * m.monthlySubscriptionCost else m.monthlySubscriptionCost) =
          m.monthlySubscriptionCost -
            (if f then (1 / 10) * m.monthlySubscriptionCost else 0)) := by
  constructor
  · intro pre post b hs hpre hb hpos
    have hprice : (if f then (9 / 10) * b.pricePerCopy else b.pricePerCopy) =
        b.pricePerCopy - (if f then (1 / 10) * b.pricePerCopy else 0) := by
      cases f
      · simp
      · simp only [if_true]; ring
    rw [sellBookToCustomer_first s t y f pre post b hs hpre hb, if_pos hpos, hprice]
    exact ⟨rfl, rfl, rfl⟩
  · intro pre post m hs hpre hm hpos
    have hprice :
        (if f then (9 / 10) * m.monthlySubscriptionCost else m.monthlySubscriptionCost) =
          m.monthlySubscriptionCost -
            (if f then (1 / 10) * m.monthlySubscriptionCost else 0) := by
      cases f
      · simp
      · simp only [if_true]; ring
    rw [sellMagazineToCustomer_first s t y f pre post m hs hpre hm, if_pos hpos, hprice]
    exact ⟨rfl, rfl, rfl⟩

theorem sale_discount_is_a_tenth_witness :
    (duneStore.sellBookToCustomer "Dune" 1965 true).2 =
        [Output.bookSold duneHerbert, Output.customerType true,
          Output.discountApplied
            (if true then (1 / 10) * duneHerbert.pricePerCopy else 0),
          Output.paymentReceived
            (if true then (9 / 10) * duneHerbert.pricePerCopy else duneHerbert.pricePerCopy)] ∧
      (duneStore.sellMagazineToCustomer "Wired" 2020 false).2 =
        [Output.magazineSold wiredMagazine, Output.customerType false,
          Output.discountApplied
            (if false then (1 / 10) * wiredMagazine.monthlySubscriptionCost else 0),
          Output.paymentReceived
            (if false then (9 / 10) * wiredMagazine.monthlySubscriptionCost
              else wiredMagazine.monthlySubscriptionCost)] :=
  ⟨((sale_discount_is_a_tenth duneStore "Dune" 1965 true).1 [] [duneOther] duneHerbert
      rfl (by decide) (by decide) (by decide)).1,
    ((sale_discount_is_a_tenth duneStore "Wired" 2020 false).2 [] [] wiredMagazine
      rfl (by decide) (by decide) (by decide)).1⟩


/-- C6. Not-found path: in a state where no book has both the requested title and the
requested year, `sellBookToCustomer` writes only the not-in-inventory message, for
either value of the flag, and returns the state it was given: books, magazines,
customers and both cashier fields are what they were. -/
theorem sellBook_not_found_unchanged (s : StoreManager) (t : String) (y : Int) (f : Bool)
    (h : ∀ b ∈ s.books, ¬ (b.title = t ∧ b.publicationYear = y)) :
    s.sellBookToCustomer t y f = (s, [Output.bookNotInInventory]) :=
  sellBookToCustomer_none s t y f h

theorem sellBook_not_found_unchanged_witness :
    (∀ b ∈ duneStore.books, ¬ (b.title = "Unknown" ∧ b.publicationYear = 1900)) ∧
      duneStore.sellBookToCustomer "Unknown" 1900 false =
        (duneStore, [Output.bookNotInInventory]) :=
  ⟨by decide, sellBook_not_found_unchanged duneStore "Unknown" 1900 false (by decide)⟩

/-- C7. Sale matching ignores the author: when `b` is the first book in insertion order
with the requested title and year (nothing is assumed about its author) and `b` has a
positive number of copies, the sale succeeds: the book is announced as sold, a payment
is received, `b` loses exactly one copy and every other book entry is unchanged. -/
theorem sellBook_first_match_any_author (s : StoreManager) (t : String) (y : Int) (f : Bool)
    (pre post : List Book) (b : Book) (hs : s.books = pre ++ b :: post)
    (hpre : ∀ x ∈ pre, ¬ (x.title = t ∧ x.publicationYear = y))
    (hb : b.title = t ∧ b.publicationYear = y) (hpos : 0 < b.numCopies) :
    (s.sellBookToCustomer t y f).1.books =
        pre ++ { b with numCopies := b.numCopies - 1 } :: post ∧
      Output.bookSold b ∈ (s.sellBookToCustomer t y f).2 ∧
      Output.paymentReceived (b.pricePerCopy - if f then (1 / 10) * b.pricePerCopy else 0) ∈
        (s.sellBookToCustomer t y f).2 := by
  rw [sellBookToCustomer_first s t y f pre post b hs hpre hb, if_pos hpos]
  simp

theorem sellBook_first_match_any_author_witness :
    (duneStore.sellBookToCustomer "Dune" 1965 false).1.books =
        [{ duneHerbert with numCopies := 4 }, duneOther] ∧
      Output.bookSold duneHerbert ∈ (duneStore.sellBookToCustomer "Dune" 1965 false).2 ∧
      Output.paymentReceived
          (duneHerbert.pricePerCopy - if false then (1 / 10) * duneHerbert.pricePerCopy else 0) ∈
        (duneStore.sellBookToCustomer "Dune" 1965 false).2 :=
  sellBook_first_match_any_author duneStore "Dune" 1965 false [] [duneOther] duneHerbert
    rfl (by decide) (by decide) (by decide)

/-- C8. Intake matching includes the author: when no book of the store has the title,
author and year of the candidate (some may share its title and year), `addBook` appends
the candidate as the new last entry, the list grows by exactly one, and every earlier
entry keeps its position and all its fields. -/
theorem addBook_new_key_appends (s : StoreManager) (book : Book)
    (h : ∀ e ∈ s.books, ¬ (e.title = book.title ∧ e.author = book.author ∧
      e.publicationYear = book.publicationYear)) :
    (s.addBook book).1.books = s.books ++ [book] ∧
      (s.addBook book).1.books.length = s.books.length + 1 ∧
      (s.addBook book).1.books.getLast? = some book ∧
      ∀ i, i < s.books.length → (s.addBook book).1.books[i]? = s.books[i]? := by
  rw [addBook_none s book h]
  refine ⟨rfl, by simp, by simp, ?_⟩
  intro i hi
  exact List.getElem?_append_left hi

theorem addBook_new_key_appends_witness :
    (∀ e ∈ (emptyStore.addBook duneHerbert).1.books,
        ¬ (e.title = duneOther.title ∧ e.author = duneOther.author ∧
          e.publicationYear = duneOther.publicationYear)) ∧
      ((emptyStore.addBook duneHerbert).1.addBook duneOther).1.books =
        [duneHerbert] ++ [duneOther] :=
  ⟨by decide,
    (addBook_new_key_appends (emptyStore.addBook duneHerbert).1 duneOther (by decide)).1⟩

set_option maxRecDepth 20000 in
/-- C9, as stated, fails: in double precision, with the balance at `-9999999999999000`
(the cashier of `main` after one copy priced `1e16`), the intake of one copy priced `1`
debits the amount `1 * 1 = 1`, yet `initialMoney` after the call is what it was before:
the exact difference lies halfway between two `double` values and is rounded back. -/
theorem addBook_debit_counterexample :
    largeDebtCashier.initialMoney = Binary64.finite (-4999999999999500) 1 ∧
      (Binary64.ofInt 1).mul (Binary64.ofInt 1) = Binary64.finite 4503599627370496 (-52) ∧
      (addBookDebit64 largeDebtCashier (Binary64.ofInt 1) 1).initialMoney =
        largeDebtCashier.initialMoney := by
  decide

/-- C9, amended. Book intake debit, with money modelled as exact rationals: for every
state and every candidate, `addBook` lowers `initialMoney` by exactly
`pricePerCopy * numCopies` of the candidate, whether the candidate merges into an
existing entry or is appended, and leaves `moneyPaidByCustomer` unchanged. -/
theorem addBook_debits_price_times_copies (s : StoreManager) (book : Book) :
    (s.addBook book).1.cashier.initialMoney =
        s.cashier.initialMoney - book.pricePerCopy * book.numCopies ∧
      (s.addBook book).1.cashier.moneyPaidByCustomer = s.cashier.moneyPaidByCustomer := by
  rw [addBook_cashier]
  exact ⟨rfl, rfl⟩

set_option maxRecDepth 20000 in
/-- C10, as stated, fails: in double precision, with the balance at `-9999999999999000`
(the cashier of `main` after one copy of a book priced `1e16`), the intake of a magazine
with subscription cost `1` leaves `initialMoney` what it was before: the exact
difference lies halfway between two `double` values and is rounded back. -/
theorem addMagazine_debit_counterexample :
    largeDebtCashier.initialMoney = Binary64.finite (-4999999999999500) 1 ∧
      Binary64.ofInt 1 = Binary64.finite 4503599627370496 (-52) ∧
      (addMagazineDebit64 largeDebtCashier (Binary64.ofInt 1)).initialMoney =
        largeDebtCashier.initialMoney := by
  decide

/-- C10, amended. Magazine intake debit is flat, with money modelled as exact rationals:
for every state and every candidate, `addMagazine` lowers `initialMoney` by exactly the
candidate's `monthlySubscriptionCost`, whatever its `issueNumber` and whether it merges
or is appended, and leaves `moneyPaidByCustomer` unchanged. -/
theorem addMagazine_debits_subscription_cost (s : StoreManager) (magazine : Magazine) :
    (s.addMagazine magazine).1.cashier.initialMoney =
        s.cashier.initialMoney - magazine.monthlySubscriptionCost ∧
      (s.addMagazine magazine).1.cashier.moneyPaidByCustomer =
        s.cashier.moneyPaidByCustomer := by
  rw [addMagazine_cashier]
  exact ⟨rfl, rfl⟩

/-! ## Frame lemmas for the intake operations -/

theorem addBook_frame (s : StoreManager) (book : Book) :
    (s.addBook book).1.magazines = s.magazines ∧
      (s.addBook book).1.customers = s.customers := by
  unfold StoreManager.addBook
  cases addBookLoop book s.books <;> exact ⟨rfl, rfl⟩

theorem addMagazine_frame (s : StoreManager) (magazine : Magazine) :
    (s.addMagazine magazine).1.books = s.books ∧
      (s.addMagazine magazine).1.customers = s.customers := by
  unfold StoreManager.addMagazine
  cases addMagazineLoop magazine s.magazines <;> exact ⟨rfl, rfl⟩

/-! ## Further claims on single calls -/

/-- C12. Out-of-stock is atomic: when the first book with the requested title and year has
`numCopies = 0`, `sellBookToCustomer` writes only the out-of-stock message and returns
the state it was given (books, magazines, customers and both cashier fields); the same
holds for `sellMagazineToCustomer` with `issueNumber = 0`; and whenever a sale call
changes the book list (the magazine list) it has announced a sale, so inventory changes
only when a sale succeeds. -/
theorem out_of_stock_is_atomic (s : StoreManager) (t : String) (y : Int) (f : Bool) :
    (∀ (pre post : List Book) (b : Book), s.books = pre ++ b :: post →
      (∀ x ∈ pre, ¬ (x.title = t ∧ x.publicationYear = y)) →
      (b.title = t ∧ b.publicationYear = y) → b.numCopies = 0 →
      s.sellBookToCustomer t y f = (s, [Output.bookOutOfStock])) ∧
    (∀ (pre post : List Magazine) (m : Magazine), s.magazines = pre ++ m :: post →
      (∀ x ∈ pre, ¬ (x.title = t ∧ x.publicationYear = y)) →
      (m.title = t ∧ m.publicationYear = y) → m.issueNumber = 0 →
      s.sellMagazineToCustomer t y f = (s, [Output.magazineOutOfStock])) ∧
    ((s.sellBookToCustomer t y f).1 ≠ s →
      ∃ b, Output.bookSold b ∈ (s.sellBookToCustomer t y f).2) ∧
    ((s.sellMagazineToCustomer t y f).1 ≠ s →
      ∃ m, Output.magazineSold m ∈ (s.sellMagazineToCustomer t y f).2) := by
  refine ⟨?_, ?_, ?_, ?_⟩
  · intro pre post b hs hpre hb hzero
    have hnot : ¬ 0 < b.numCopies := by omega
    rw [sellBookToCustomer_first s t y f pre post b hs hpre hb, if_neg hnot]
  · intro pre post m hs hpre hm hzero
    have hnot : ¬ 0 < m.issueNumber := by omega
    rw [sellMagazineToCustomer_first s t y f pre post m hs hpre hm, if_neg hnot]
  · rcases first_match_split (fun b : Book => b.title = t ∧ b.publicationYear = y) s.books
      with hnone | ⟨pre, b, post, hs, hpre, hb⟩
    · rw [sellBookToCustomer_none s t y f hnone]
      intro h; exact absurd rfl h
    · rw [sellBookToCustomer_first s t y f pre post b hs hpre hb]
      by_cases hpos : 0 < b.numCopies
      · rw [if_pos hpos]
        intro _
        exact ⟨b, List.mem_cons_self _ _⟩
      · rw [if_neg hpos]
        intro h; exact absurd rfl h
  · rcases first_match_split (fun m : Magazine => m.title = t ∧ m.publicationYear = y)
      s.magazines with hnone | ⟨pre, m, post, hs, hpre, hm⟩
    · rw [sellMagazineToCustomer_none s t y f hnone]
      intro h; exact absurd rfl h
    · rw [sellMagazineToCustomer_first s t y f pre post m hs hpre hm]
      by_cases hpos : 0 < m.issueNumber
      · rw [if_pos hpos]
        intro _
        exact ⟨m, List.mem_cons_self _ _⟩
      · rw [if_neg hpos]
        intro h; exact absurd rfl h

theorem out_of_stock_is_atomic_witness :
    soldOutStore.sellBookToCustomer "Dune" 1965 true = (soldOutStore, [Output.bookOutOfStock]) ∧
      soldOutStore.sellMagazineToCustomer "Wired" 2020 false =
        (soldOutStore, [Output.magazineOutOfStock]) :=
  ⟨(out_of_stock_is_atomic soldOutStore "Dune" 1965 true).1
      [] [] { duneHerbert with numCopies := 0 } rfl (by decide) (by decide) (by decide),
    (out_of_stock_is_atomic soldOutStore "Wired" 2020 false).2.1
      [] [] { wiredMagazine with issueNumber := 0 } rfl (by decide) (by decide) (by decide)⟩

/-- C13. Customer registration always succeeds and only appends: for every state and every
customer, also one whose id or name is already registered, `registerCustomer` yields
the previous customer list followed by that customer, writes nothing, and leaves books,
magazines and both cashier fields unchanged. -/
theorem registerCustomer_only_appends (s : StoreManager) (customer : Customer) :
    (s.registerCustomer customer).1.customers = s.customers ++ [customer] ∧
      (s.registerCustomer customer).1.books = s.books ∧
      (s.registerCustomer customer).1.magazines = s.magazines ∧
      (s.registerCustomer customer).1.cashier.initialMoney = s.cashier.initialMoney ∧
      (s.registerCustomer customer).1.cashier.moneyPaidByCustomer =
        s.cashier.moneyPaidByCustomer ∧
      (s.registerCustomer customer).2 = [] ∧
      ((s.registerCustomer customer).1.registerCustomer customer).1.customers =
        s.customers ++ [customer] ++ [customer] :=
  ⟨rfl, rfl, rfl, rfl, rfl, rfl, rfl⟩

/-- C15. The sale scan stops at the first match: when the first book with the requested
title and year has `numCopies = 0` and a later book with the same title and year has
`numCopies > 0`, `sellBookToCustomer` writes only the out-of-stock message, takes no
payment (the cashier is unchanged) and leaves every book, the later one included, as
it was. -/
theorem sellBook_stops_at_first_match (s : StoreManager) (t : String) (y : Int) (f : Bool)
    (pre mid post : List Book) (b later : Book)
    (hs : s.books = pre ++ b :: (mid ++ later :: post))
    (hpre : ∀ x ∈ pre, ¬ (x.title = t ∧ x.publicationYear = y))
    (hb : b.title = t ∧ b.publicationYear = y) (hzero : b.numCopies = 0)
    (_hlater : later.title = t ∧ later.publicationYear = y)
    (_hstock : 0 < later.numCopies) :
    (s.sellBookToCustomer t y f).2 = [Output.bookOutOfStock] ∧
      (s.sellBookToCustomer t y f).1.cashier = s.cashier ∧
      (s.sellBookToCustomer t y f).1.books = pre ++ b :: (mid ++ later :: post) := by
  have hnot : ¬ 0 < b.numCopies := by omega
  rw [sellBookToCustomer_first s t y f pre (mid ++ later :: post) b hs hpre hb, if_neg hnot]
  exact ⟨rfl, rfl, hs⟩

theorem sellBook_stops_at_first_match_witness :
    (shadowedStore.sellBookToCustomer "Dune" 1965 false).2 = [Output.bookOutOfStock] ∧
      (shadowedStore.sellBookToCustomer "Dune" 1965 false).1.cashier = shadowedStore.cashier ∧
      (shadowedStore.sellBookToCustomer "Dune" 1965 false).1.books =
        [] ++ { duneHerbert with numCopies := 0 } :: ([] ++ duneOther :: []) :=
  sellBook_stops_at_first_match shadowedStore "Dune" 1965 false [] [] []
    { duneHerbert with numCopies := 0 } duneOther rfl (by decide) (by decide) (by decide)
    (by decide) (by decide)

/-- C18. A merge keeps the stored price: when the first book with the key of the candidate
is `e`, whatever the candidate's `pricePerCopy`, `addBook` replaces `e` by `e` with
`numCopies` raised by the candidate's copies, as the `int` sum of the two (title,
author, year and `pricePerCopy` of `e` are kept), changes no other entry and appends
none, while `initialMoney` drops by the candidate's `pricePerCopy` times its
`numCopies`; likewise a merging `addMagazine` changes only `issueNumber` of the
existing entry, keeping its `genre` and `monthlySubscriptionCost`. -/
theorem merge_keeps_stored_price (s : StoreManager) :
    (∀ (book e : Book) (pre post : List Book), s.books = pre ++ e :: post →
      (∀ x ∈ pre, ¬ (x.title = book.title ∧ x.author = book.author ∧
        x.publicationYear = book.publicationYear)) →
      (e.title = book.title ∧ e.author = book.author ∧
        e.publicationYear = book.publicationYear) →
      (s.addBook book).1.books =
          pre ++ { title := e.title, author := e.author, publicationYear := e.publicationYear,
                   numCopies := wrapInt32 (e.numCopies + book.numCopies),
                   pricePerCopy := e.pricePerCopy } :: post ∧
        (s.addBook book).1.books.length = s.books.length ∧
        (s.addBook book).1.cashier.initialMoney =
          s.cashier.initialMoney - book.pricePerCopy * book.numCopies) ∧
    (∀ (magazine e : Magazine) (pre post : List Magazine), s.magazines = pre ++ e :: post →
      (∀ x ∈ pre, ¬ (x.title = magazine.title ∧ x.author = magazine.author ∧
        x.publicationYear = magazine.publicationYear)) →
      (e.title = magazine.title ∧ e.author = magazine.author ∧
        e.publicationYear = magazine.publicationYear) →
      (s.addMagazine magazine).1.magazines =
          pre ++ { title := e.title, author := e.author, publicationYear := e.publicationYear,
                   issueNumber := wrapInt32 (e.issueNumber + magazine.issueNumber),
                   genre := e.genre,
                   monthlySubscriptionCost := e.monthlySubscriptionCost } :: post ∧
        (s.addMagazine magazine).1.magazines.length = s.magazines.length) := by
  constructor
  · intro book e pre post hs hpre he
    rw [addBook_first s book e pre post hs hpre he, hs]
    refine ⟨rfl, ?_, rfl⟩
    simp
  · intro magazine e pre post hs hpre he
    rw [addMagazine_first s magazine e pre post hs hpre he, hs]
    refine ⟨rfl, ?_⟩
    simp

theorem merge_keeps_stored_price_witness :
    (duneStore.addBook { duneHerbert with numCopies := 2, pricePerCopy := 99 }).1.books =
        [{ duneHerbert with numCopies := 7 }, duneOther] ∧
      (duneStore.addMagazine
          { wiredMagazine with issueNumber := 4, genre := "Other",
                               monthlySubscriptionCost := 1 }).1.magazines =
        [{ wiredMagazine with issueNumber := 6 }] :=
  ⟨((merge_keeps_stored_price duneStore).1
      { duneHerbert with numCopies := 2, pricePerCopy := 99 } duneHerbert [] [duneOther]
      rfl (by decide) (by decide)).1,
    ((merge_keeps_stored_price duneStore).2
      { wiredMagazine with issueNumber := 4, genre := "Other", monthlySubscriptionCost := 1 }
      wiredMagazine [] [] rfl (by decide) (by decide)).1⟩

/-- C19. Cross-component frame: for every state, `addBook` and `sellBookToCustomer` leave
the magazine list and the customer list unchanged, `addMagazine` and
`sellMagazineToCustomer` leave the book list and the customer list unchanged, both sale
operations leave `initialMoney` unchanged, and both intake operations leave
`moneyPaidByCustomer` unchanged. -/
theorem cross_component_frame (s : StoreManager) (book : Book) (magazine : Magazine)
    (t : String) (y : Int) (f : Bool) :
    ((s.addBook book).1.magazines = s.magazines ∧
      (s.addBook book).1.customers = s.customers ∧
      (s.addBook book).1.cashier.moneyPaidByCustomer = s.cashier.moneyPaidByCustomer) ∧
    ((s.sellBookToCustomer t y f).1.magazines = s.magazines ∧
      (s.sellBookToCustomer t y f).1.customers = s.customers ∧
      (s.sellBookToCustomer t y f).1.cashier.initialMoney = s.cashier.initialMoney) ∧
    ((s.addMagazine magazine).1.books = s.books ∧
      (s.addMagazine magazine).1.customers = s.customers ∧
      (s.addMagazine magazine).1.cashier.moneyPaidByCustomer =
        s.cashier.moneyPaidByCustomer) ∧
    ((s.sellMagazineToCustomer t y f).1.books = s.books ∧
      (s.sellMagazineToCustomer t y f).1.customers = s.customers ∧
      (s.sellMagazineToCustomer t y f).1.cashier.initialMoney = s.cashier.initialMoney) := by
  refine ⟨⟨(addBook_frame s book).1, (addBook_frame s book).2, ?_⟩, sellBook_frame s t y f,
    ⟨(addMagazine_frame s magazine).1, (addMagazine_frame s magazine).2, ?_⟩,
    sellMagazine_frame s t y f⟩
  · rw [addBook_cashier]; rfl
  · rw [addMagazine_cashier]; rfl

/-! ## The magazine sale as a renamed book sale -/

theorem sellMagazineLoop_renamed (t : String) (y : Int) (f : Bool) (c : Cashier)
    (magazines : List Magazine) :
    (sellMagazineLoop t y f c magazines).map
        (fun r => (r.1.map Magazine.toBook, r.2.1, r.2.2.map Output.renameMagazine)) =
      sellBookLoop t y f c (magazines.map Magazine.toBook) := by
  induction magazines with
  | nil => rfl
  | cons m rest ih =>
    rw [List.map_cons]
    by_cases hm : m.title = t ∧ m.publicationYear = y
    · have hb : m.toBook.title = t ∧ m.toBook.publicationYear = y := hm
      by_cases hpos : m.issueNumber > 0
      · have hposb : m.toBook.numCopies > 0 := hpos
        simp only [sellMagazineLoop, sellBookLoop, if_pos hm, if_pos hb, if_pos hpos,
          if_pos hposb, Option.map_some']
        rfl
      · have hposb : ¬ m.toBook.numCopies > 0 := hpos
        simp only [sellMagazineLoop, sellBookLoop, if_pos hm, if_pos hb, if_neg hpos,
          if_neg hposb, Option.map_some']
        rfl
    · have hb : ¬ (m.toBook.title = t ∧ m.toBook.publicationYear = y) := hm
      simp only [sellMagazineLoop, sellBookLoop, if_neg hm, if_neg hb, ← ih, Option.map_map]
      rfl

/-- C16. The magazine sale is the book sale up to renaming: send each magazine to the book
with the same title, author and year, `numCopies = issueNumber` and
`pricePerCopy = monthlySubscriptionCost`. Then for every store, title, year and flag,
the renamed magazine list after `sellMagazineToCustomer`, the cashier after it (hence
the payment received) and its renamed messages (hence the outcome: sold, out of stock
or not found) are those of `sellBookToCustomer` on the store whose books are the
renamed magazines. -/
theorem sellMagazine_is_renamed_sellBook (s : StoreManager) (t : String) (y : Int)
    (f : Bool) :
    (s.sellMagazineToCustomer t y f).1.magazines.map Magazine.toBook =
        (StoreManager.sellBookToCustomer
          { s with books := s.magazines.map Magazine.toBook } t y f).1.books ∧
      (s.sellMagazineToCustomer t y f).1.cashier =
        (StoreManager.sellBookToCustomer
          { s with books := s.magazines.map Magazine.toBook } t y f).1.cashier ∧
      (s.sellMagazineToCustomer t y f).2.map Output.renameMagazine =
        (StoreManager.sellBookToCustomer
          { s with books := s.magazines.map Magazine.toBook } t y f).2 := by
  have h := sellMagazineLoop_renamed t y f s.cashier s.magazines
  unfold StoreManager.sellMagazineToCustomer StoreManager.sellBookToCustomer
  simp only
  rw [← h]
  cases sellMagazineLoop t y f s.cashier s.magazines with
  | none => exact ⟨rfl, rfl, rfl⟩
  | some r => exact ⟨rfl, rfl, rfl⟩

/-! ## Monotonicity of the cash ledger -/

theorem specSalePrice_nonneg (s : StoreManager) (op : Op)
    (hbooks : ∀ b ∈ s.books, 0 ≤ b.pricePerCopy)
    (hmags : ∀ m ∈ s.magazines, 0 ≤ m.monthlySubscriptionCost) :
    0 ≤ specSalePrice s op := by
  cases op with
  | addBook book => simp [specSalePrice]
  | addMagazine magazine => simp [specSalePrice]
  | registerCustomer customer => simp [specSalePrice]
  | sellBook t y f =>
    simp only [specSalePrice]
    cases hfind : s.books.find? fun b => decide (b.title = t ∧ b.publicationYear = y) with
    | none => exact le_refl 0
    | some b =>
      have hp := hbooks b (List.mem_of_find?_eq_some hfind)
      show 0 ≤ if 0 < b.numCopies then
        b.pricePerCopy - (if f then (1 / 10) * b.pricePerCopy else 0) else 0
      split
      · cases f
        · simpa using hp
        · simp only [if_true]; linarith
      · exact le_refl 0
  | sellMagazine t y f =>
    simp only [specSalePrice]
    cases hfind : s.magazines.find? fun m => decide (m.title = t ∧ m.publicationYear = y) with
    | none => exact le_refl 0
    | some m =>
      have hp := hmags m (List.mem_of_find?_eq_some hfind)
      show 0 ≤ if 0 < m.issueNumber then
        m.monthlySubscriptionCost -
          (if f then (1 / 10) * m.monthlySubscriptionCost else 0) else 0
      split
      · cases f
        · simpa using hp
        · simp only [if_true]; linarith
      · exact le_refl 0

/-- C11, as stated, fails: `main` reads the price with no check, and taking in one copy of
a book priced at -5 raises `initialMoney` from 1000 to 1005; selling that copy lowers
`moneyPaidByCustomer` from 0 to -5. -/
theorem cashier_monotone_counterexample :
    ¬ (emptyStore.addBook negativePriceBook).1.cashier.initialMoney ≤
        emptyStore.cashier.initialMoney ∧
      ¬ (emptyStore.addBook negativePriceBook).1.cashier.moneyPaidByCustomer ≤
        ((emptyStore.addBook negativePriceBook).1.sellBookToCustomer
          "Refund" 2000 false).1.cashier.moneyPaidByCustomer := by
  constructor
  · simp [emptyStore, negativePriceBook, StoreManager.new, Cashier.new, StoreManager.addBook,
      addBookLoop, Cashier.reduceMoneyForBook]
  · simp [emptyStore, negativePriceBook, StoreManager.new, Cashier.new, StoreManager.addBook,
      addBookLoop, Cashier.reduceMoneyForBook, StoreManager.sellBookToCustomer, sellBookLoop,
      Cashier.receivePayment]

/-- In double precision the order of the balances is lost altogether once a balance is
infinite: a debit of `+inf` at the balance `+inf` leaves not-a-number, which is above
and below nothing.  This is why the monotonicity of the cashier is stated for money as
exact rationals. -/
theorem debit_at_infinite_balance :
    (Cashier64.reduceMoneyForBook
        { initialMoney := Binary64.infinity false, moneyPaidByCustomer := Binary64.ofInt 0 }
        (Binary64.infinity false)).initialMoney = Binary64.nan := by
  decide

/-- C11, amended. With money modelled as exact rationals, for every state and every engine
call: `initialMoney` after the call is at most its value before, provided the amount an
intake debits is not negative (`pricePerCopy * numCopies` of an `addBook` candidate,
`monthlySubscriptionCost` of an `addMagazine` candidate); and `moneyPaidByCustomer`
after the call is at least its value before, provided no stocked book has a negative
`pricePerCopy` and no stocked magazine a negative `monthlySubscriptionCost`.  Each
inequality needs its own proviso only. -/
theorem cashier_monotone_for_nonnegative_amounts (s : StoreManager) (op : Op) :
    ((∀ book, op = Op.addBook book → 0 ≤ book.pricePerCopy * book.numCopies) →
      (∀ magazine, op = Op.addMagazine magazine → 0 ≤ magazine.monthlySubscriptionCost) →
      (step s op).1.cashier.initialMoney ≤ s.cashier.initialMoney) ∧
    ((∀ b ∈ s.books, 0 ≤ b.pricePerCopy) →
      (∀ m ∈ s.magazines, 0 ≤ m.monthlySubscriptionCost) →
      s.cashier.moneyPaidByCustomer ≤ (step s op).1.cashier.moneyPaidByCustomer) := by
  constructor
  · intro hbook hmagazine
    rw [step_initialMoney]
    have hdebit : 0 ≤ specIntakeDebit op := by
      cases op with
      | addBook book => exact hbook book rfl
      | addMagazine magazine => exact hmagazine magazine rfl
      | registerCustomer customer => exact le_refl 0
      | sellBook t y f => exact le_refl 0
      | sellMagazine t y f => exact le_refl 0
    linarith
  · intro hbooks hmags
    rw [step_moneyPaidByCustomer]
    have := specSalePrice_nonneg s op hbooks hmags
    linarith

theorem cashier_monotone_for_nonnegative_amounts_witness :
    (step duneStore (Op.addBook duneOther)).1.cashier.initialMoney ≤
        duneStore.cashier.initialMoney ∧
      duneStore.cashier.moneyPaidByCustomer ≤
        (step duneStore (Op.sellBook "Dune" 1965 true)).1.cashier.moneyPaidByCustomer :=
  ⟨(cashier_monotone_for_nonnegative_amounts duneStore (Op.addBook duneOther)).1
      (by intro book h; cases h; simp [duneOther]) (by intro magazine h; cases h),
    (cashier_monotone_for_nonnegative_amounts duneStore (Op.sellBook "Dune" 1965 true)).2
      (by simp [duneStore, duneHerbert, duneOther])
      (by simp [duneStore, wiredMagazine])⟩

/-! ## Keys of reachable states -/

theorem map_eq_of_forall₂ {α β : Type} (f : α → β) (l l2 : List α)
    (h : List.Forall₂ (fun a b => f b = f a) l l2) : l2.map f = l.map f := by
  induction h with
  | nil => rfl
  | cons hab _ ih => rw [List.map_cons, List.map_cons, hab, ih]

theorem publication_eq_iff (p q : Publication) :
    p = q ↔ p.title = q.title ∧ p.author = q.author ∧ p.publicationYear = q.publicationYear := by
  constructor
  · rintro rfl; exact ⟨rfl, rfl, rfl⟩
  · rintro ⟨h1, h2, h3⟩
    cases p; cases q
    simp only at h1 h2 h3
    subst h1 h2 h3
    rfl

theorem addBook_keys (s : StoreManager) (book : Book)
    (h : (s.books.map Book.toPublication).Nodup) :
    ((s.addBook book).1.books.map Book.toPublication).Nodup := by
  rcases first_match_split
      (fun e : Book => e.title = book.title ∧ e.author = book.author ∧
        e.publicationYear = book.publicationYear) s.books with
    hnone | ⟨pre, e, post, hs, hpre, he⟩
  · rw [addBook_none s book hnone]
    show ((s.books ++ [book]).map Book.toPublication).Nodup
    rw [List.map_append, List.map_singleton]
    refine List.Nodup.append h (List.nodup_singleton _) ?_
    intro k hk hk2
    rw [List.mem_singleton] at hk2
    subst hk2
    obtain ⟨e, he, hek⟩ := List.mem_map.mp hk
    exact hnone e he ((publication_eq_iff _ _).mp hek)
  · rw [addBook_first s book e pre post hs hpre he]
    show ((pre ++
      { e with numCopies := wrapInt32 (e.numCopies + book.numCopies) } :: post).map
      Book.toPublication).Nodup
    rw [hs] at h
    simpa using h

theorem addMagazine_keys (s : StoreManager) (magazine : Magazine)
    (h : (s.magazines.map Magazine.toPublication).Nodup) :
    ((s.addMagazine magazine).1.magazines.map Magazine.toPublication).Nodup := by
  rcases first_match_split
      (fun e : Magazine => e.title = magazine.title ∧ e.author = magazine.author ∧
        e.publicationYear = magazine.publicationYear) s.magazines with
    hnone | ⟨pre, e, post, hs, hpre, he⟩
  · rw [addMagazine_none s magazine hnone]
    show ((s.magazines ++ [magazine]).map Magazine.toPublication).Nodup
    rw [List.map_append, List.map_singleton]
    refine List.Nodup.append h (List.nodup_singleton _) ?_
    intro k hk hk2
    rw [List.mem_singleton] at hk2
    subst hk2
    obtain ⟨e, he, hek⟩ := List.mem_map.mp hk
    exact hnone e he ((publication_eq_iff _ _).mp hek)
  · rw [addMagazine_first s magazine e pre post hs hpre he]
    show ((pre ++
      { e with issueNumber := wrapInt32 (e.issueNumber + magazine.issueNumber) } :: post).map
      Magazine.toPublication).Nodup
    rw [hs] at h
    simpa using h

theorem sellBook_keys (s : StoreManager) (t : String) (y : Int) (f : Bool) :
    (s.sellBookToCustomer t y f).1.books.map Book.toPublication =
      s.books.map Book.toPublication :=
  map_eq_of_forall₂ Book.toPublication _ _
    ((sellBook_entrywise s t y f).imp fun _ _ h => h.1)

theorem sellMagazine_keys (s : StoreManager) (t : String) (y : Int) (f : Bool) :
    (s.sellMagazineToCustomer t y f).1.magazines.map Magazine.toPublication =
      s.magazines.map Magazine.toPublication :=
  map_eq_of_forall₂ Magazine.toPublication _ _
    ((sellMagazine_entrywise s t y f).imp fun _ _ h => h.1)

theorem step_keys (s : StoreManager) (op : Op)
    (h : (s.books.map Book.toPublication).Nodup ∧
      (s.magazines.map Magazine.toPublication).Nodup) :
    ((step s op).1.books.map Book.toPublication).Nodup ∧
      ((step s op).1.magazines.map Magazine.toPublication).Nodup := by
  cases op with
  | addBook book =>
    show ((s.addBook book).1.books.map Book.toPublication).Nodup ∧
      ((s.addBook book).1.magazines.map Magazine.toPublication).Nodup
    rw [(addBook_frame s book).1]
    exact ⟨addBook_keys s book h.1, h.2⟩
  | addMagazine magazine =>
    show ((s.addMagazine magazine).1.books.map Book.toPublication).Nodup ∧
      ((s.addMagazine magazine).1.magazines.map Magazine.toPublication).Nodup
    rw [(addMagazine_frame s magazine).1]
    exact ⟨h.1, addMagazine_keys s magazine h.2⟩
  | registerCustomer customer => exact h
  | sellBook t y f =>
    show ((s.sellBookToCustomer t y f).1.books.map Book.toPublication).Nodup ∧
      ((s.sellBookToCustomer t y f).1.magazines.map Magazine.toPublication).Nodup
    rw [sellBook_keys, (sellBook_frame s t y f).1]
    exact h
  | sellMagazine t y f =>
    show ((s.sellMagazineToCustomer t y f).1.books.map Book.toPublication).Nodup ∧
      ((s.sellMagazineToCustomer t y f).1.magazines.map Magazine.toPublication).Nodup
    rw [sellMagazine_keys, (sellMagazine_frame s t y f).1]
    exact h

theorem run_keys (ops : List Op) :
    ∀ s : StoreManager,
      ((s.books.map Book.toPublication).Nodup ∧
        (s.magazines.map Magazine.toPublication).Nodup) →
      (((run s ops).1.books.map Book.toPublication).Nodup ∧
        ((run s ops).1.magazines.map Magazine.toPublication).Nodup) := by
  induction ops with
  | nil => intro s h; exact h
  | cons op rest ih =>
    intro s h
    rw [run_cons]
    exact ih (step s op).1 (step_keys s op h)

theorem filter_length_le_one {α : Type} (p : α → Bool) (l : List α)
    (h : l.Pairwise fun a b => ¬ (p a = true ∧ p b = true)) : (l.filter p).length ≤ 1 := by
  induction l with
  | nil => simp
  | cons a rest ih =>
    rw [List.pairwise_cons] at h
    by_cases ha : p a = true
    · have hrest : rest.filter p = [] := by
        rw [List.filter_eq_nil_iff]
        intro b hb hpb
        exact h.1 b hb ⟨ha, hpb⟩
      simp [List.filter, ha, hrest]
    · have := ih h.2
      simpa [List.filter, ha] using this

theorem pairwise_keys_of_nodup {α : Type} (key : α → Publication) (l : List α)
    (h : (l.map key).Nodup) :
    l.Pairwise fun a b => ¬ ((key a).title = (key b).title ∧
      (key a).author = (key b).author ∧
      (key a).publicationYear = (key b).publicationYear) := by
  have h2 : l.Pairwise fun a b => key a ≠ key b := List.pairwise_map.mp h
  exact h2.imp fun hab hk => hab ((publication_eq_iff _ _).mpr hk)

/-- C14. Key uniqueness invariant: in every state reached from the empty store by a
sequence of `addBook`, `addMagazine`, `sellBookToCustomer`, `sellMagazineToCustomer`
and `registerCustomer` calls, no two book entries have the same title, author and year,
no two magazine entries have the same title, author and year, and so the entries that
the intake scan of any candidate can match number at most one. -/
theorem keys_unique_in_reachable_states (c : Cashier) (ops : List Op) :
    (run (StoreManager.new c) ops).1.books.Pairwise
        (fun a b => ¬ (a.title = b.title ∧ a.author = b.author ∧
          a.publicationYear = b.publicationYear)) ∧
      (run (StoreManager.new c) ops).1.magazines.Pairwise
        (fun a b => ¬ (a.title = b.title ∧ a.author = b.author ∧
          a.publicationYear = b.publicationYear)) ∧
      (∀ book : Book,
        ((run (StoreManager.new c) ops).1.books.filter fun e =>
          decide (e.title = book.title ∧ e.author = book.author ∧
            e.publicationYear = book.publicationYear)).length ≤ 1) ∧
      (∀ magazine : Magazine,
        ((run (StoreManager.new c) ops).1.magazines.filter fun e =>
          decide (e.title = magazine.title ∧ e.author = magazine.author ∧
            e.publicationYear = magazine.publicationYear)).length ≤ 1) := by
  obtain ⟨hb, hm⟩ := run_keys ops (StoreManager.new c)
    ⟨by simp [StoreManager.new], by simp [StoreManager.new]⟩
  have hbp := pairwise_keys_of_nodup Book.toPublication _ hb
  have hmp := pairwise_keys_of_nodup Magazine.toPublication _ hm
  refine ⟨hbp, hmp, ?_, ?_⟩
  · intro book
    apply filter_length_le_one
    refine hbp.imp ?_
    intro a b hab hboth
    simp only [decide_eq_true_eq] at hboth
    obtain ⟨⟨h1, h2, h3⟩, ⟨h4, h5, h6⟩⟩ := hboth
    exact hab ⟨h1.trans h4.symm, h2.trans h5.symm, h3.trans h6.symm⟩
  · intro magazine
    apply filter_length_le_one
    refine hmp.imp ?_
    intro a b hab hboth
    simp only [decide_eq_true_eq] at hboth
    obtain ⟨⟨h1, h2, h3⟩, ⟨h4, h5, h6⟩⟩ := hboth
    exact hab ⟨h1.trans h4.symm, h2.trans h5.symm, h3.trans h6.symm⟩

/-! ## The stock ledger -/

theorem step_book_copies (s : StoreManager) (op : Op)
    (hrange : bookIntakeInRange s op = true) :
    ((step s op).1.books.map fun b => b.numCopies).sum =
      (s.books.map fun b => b.numCopies).sum + intakeCopies op -
        ((step s op).2.countP Output.isBookSold : Nat) := by
  cases op with
  | addBook book =>
    show ((s.addBook book).1.books.map fun b => b.numCopies).sum =
      _ + book.numCopies - ((s.addBook book).2.countP Output.isBookSold : Nat)
    rcases first_match_split
        (fun e : Book => e.title = book.title ∧ e.author = book.author ∧
          e.publicationYear = book.publicationYear) s.books with
      hnone | ⟨pre, e, post, hs, hpre, he⟩
    · rw [addBook_none s book hnone]
      simp [Output.isBookSold, List.countP_cons]
    · have hfind := find?_first_match
        (fun e : Book => e.title = book.title ∧ e.author = book.author ∧
          e.publicationYear = book.publicationYear) pre post e hpre he
      simp only [bookIntakeInRange, hs, hfind, decide_eq_true_eq] at hrange
      rw [addBook_first s book e pre post hs hpre he, hs]
      simp only [wrapInt32_of_inRange _ hrange]
      simp [Output.isBookSold, List.countP_cons]
      ring
  | addMagazine magazine =>
    show ((s.addMagazine magazine).1.books.map fun b => b.numCopies).sum =
      _ + 0 - ((s.addMagazine magazine).2.countP Output.isBookSold : Nat)
    rcases first_match_split
        (fun e : Magazine => e.title = magazine.title ∧ e.author = magazine.author ∧
          e.publicationYear = magazine.publicationYear) s.magazines with
      hnone | ⟨pre, e, post, hs, hpre, he⟩
    · rw [addMagazine_none s magazine hnone]
      simp [Output.isBookSold, List.countP_cons]
    · rw [addMagazine_first s magazine e pre post hs hpre he]
      simp [Output.isBookSold, List.countP_cons]
  | registerCustomer customer =>
    simp [step, StoreManager.registerCustomer, intakeCopies]
  | sellBook t y f =>
    show ((s.sellBookToCustomer t y f).1.books.map fun b => b.numCopies).sum =
      _ + 0 - ((s.sellBookToCustomer t y f).2.countP Output.isBookSold : Nat)
    rcases first_match_split (fun b : Book => b.title = t ∧ b.publicationYear = y) s.books
      with hnone | ⟨pre, b, post, hs, hpre, hb⟩
    · rw [sellBookToCustomer_none s t y f hnone]
      simp [Output.isBookSold, List.countP_cons]
    · rw [sellBookToCustomer_first s t y f pre post b hs hpre hb]
      by_cases hpos : 0 < b.numCopies
      · rw [if_pos hpos, hs]
        simp [Output.isBookSold, List.countP_cons]
        ring
      · rw [if_neg hpos]
        simp [Output.isBookSold, List.countP_cons]
  | sellMagazine t y f =>
    show ((s.sellMagazineToCustomer t y f).1.books.map fun b => b.numCopies).sum =
      _ + 0 - ((s.sellMagazineToCustomer t y f).2.countP Output.isBookSold : Nat)
    rcases first_match_split (fun m : Magazine => m.title = t ∧ m.publicationYear = y)
      s.magazines with hnone | ⟨pre, m, post, hs, hpre, hm⟩
    · rw [sellMagazineToCustomer_none s t y f hnone]
      simp [Output.isBookSold, List.countP_cons]
    · rw [sellMagazineToCustomer_first s t y f pre post m hs hpre hm]
      by_cases hpos : 0 < m.issueNumber
      · rw [if_pos hpos]
        simp [Output.isBookSold, List.countP_cons]
      · rw [if_neg hpos]
        simp [Output.isBookSold, List.countP_cons]

theorem step_magazine_issues (s : StoreManager) (op : Op)
    (hrange : magazineIntakeInRange s op = true) :
    ((step s op).1.magazines.map fun m => m.issueNumber).sum =
      (s.magazines.map fun m => m.issueNumber).sum + intakeIssues op -
        ((step s op).2.countP Output.isMagazineSold : Nat) := by
  cases op with
  | addBook book =>
    show ((s.addBook book).1.magazines.map fun m => m.issueNumber).sum =
      _ + 0 - ((s.addBook book).2.countP Output.isMagazineSold : Nat)
    rcases first_match_split
        (fun e : Book => e.title = book.title ∧ e.author = book.author ∧
          e.publicationYear = book.publicationYear) s.books with
      hnone | ⟨pre, e, post, hs, hpre, he⟩
    · rw [addBook_none s book hnone]
      simp [Output.isMagazineSold, List.countP_cons]
    · rw [addBook_first s book e pre post hs hpre he]
      simp [Output.isMagazineSold, List.countP_cons]
  | addMagazine magazine =>
    show ((s.addMagazine magazine).1.magazines.map fun m => m.issueNumber).sum =
      _ + magazine.issueNumber - ((s.addMagazine magazine).2.countP Output.isMagazineSold : Nat)
    rcases first_match_split
        (fun e : Magazine => e.title = magazine.title ∧ e.author = magazine.author ∧
          e.publicationYear = magazine.publicationYear) s.magazines with
      hnone | ⟨pre, e, post, hs, hpre, he⟩
    · rw [addMagazine_none s magazine hnone]
      simp [Output.isMagazineSold, List.countP_cons]
    · have hfind := find?_first_match
        (fun e : Magazine => e.title = magazine.title ∧ e.author = magazine.author ∧
          e.publicationYear = magazine.publicationYear) pre post e hpre he
      simp only [magazineIntakeInRange, hs, hfind, decide_eq_true_eq] at hrange
      rw [addMagazine_first s magazine e pre post hs hpre he, hs]
      simp only [wrapInt32_of_inRange _ hrange]
      simp [Output.isMagazineSold, List.countP_cons]
      ring
  | registerCustomer customer =>
    simp [step, StoreManager.registerCustomer, intakeIssues]
  | sellBook t y f =>
    show ((s.sellBookToCustomer t y f).1.magazines.map fun m => m.issueNumber).sum =
      _ + 0 - ((s.sellBookToCustomer t y f).2.countP Output.isMagazineSold : Nat)
    rcases first_match_split (fun b : Book => b.title = t ∧ b.publicationYear = y) s.books
      with hnone | ⟨pre, b, post, hs, hpre, hb⟩
    · rw [sellBookToCustomer_none s t y f hnone]
      simp [Output.isMagazineSold, List.countP_cons]
    · rw [sellBookToCustomer_first s t y f pre post b hs hpre hb]
      by_cases hpos : 0 < b.numCopies
      · rw [if_pos hpos]
        simp [Output.isMagazineSold, List.countP_cons]
      · rw [if_neg hpos]
        simp [Output.isMagazineSold, List.countP_cons]
  | sellMagazine t y f =>
    show ((s.sellMagazineToCustomer t y f).1.magazines.map fun m => m.issueNumber).sum =
      _ + 0 - ((s.sellMagazineToCustomer t y f).2.countP Output.isMagazineSold : Nat)
    rcases first_match_split (fun m : Magazine => m.title = t ∧ m.publicationYear = y)
      s.magazines with hnone | ⟨pre, m, post, hs, hpre, hm⟩
    · rw [sellMagazineToCustomer_none s t y f hnone]
      simp [Output.isMagazineSold, List.countP_cons]
    · rw [sellMagazineToCustomer_first s t y f pre post m hs hpre hm]
      by_cases hpos : 0 < m.issueNumber
      · rw [if_pos hpos, hs]
        simp [Output.isMagazineSold, List.countP_cons]
        ring
      · rw [if_neg hpos]
        simp [Output.isMagazineSold, List.countP_cons]

theorem run_book_stock (ops : List Op) :
    ∀ s : StoreManager, runBooksInRange s ops = true →
      ((run s ops).1.books.map fun b => b.numCopies).sum =
        (s.books.map fun b => b.numCopies).sum + (ops.map intakeCopies).sum -
          ((run s ops).2.countP Output.isBookSold : Nat) := by
  induction ops with
  | nil =>
    intro s _
    simp [run]
  | cons op rest ih =>
    intro s hrange
    simp only [runBooksInRange, Bool.and_eq_true] at hrange
    rw [run_cons, ih (step s op).1 hrange.2, step_book_copies s op hrange.1, List.map_cons,
      List.sum_cons, List.countP_append]
    push_cast
    ring

theorem run_magazine_stock (ops : List Op) :
    ∀ s : StoreManager, runMagazinesInRange s ops = true →
      ((run s ops).1.magazines.map fun m => m.issueNumber).sum =
        (s.magazines.map fun m => m.issueNumber).sum + (ops.map intakeIssues).sum -
          ((run s ops).2.countP Output.isMagazineSold : Nat) := by
  induction ops with
  | nil =>
    intro s _
    simp [run]
  | cons op rest ih =>
    intro s hrange
    simp only [runMagazinesInRange, Bool.and_eq_true] at hrange
    rw [run_cons, ih (step s op).1 hrange.2, step_magazine_issues s op hrange.1,
      List.map_cons, List.sum_cons, List.countP_append]
    push_cast
    ring

/-- C17, as stated, fails: after `addBook` of 2147483647 copies and of 1 copy of the same
book, with no sale, the one book entry has `numCopies = -2147483648`, while the sum of
the candidates' `numCopies` minus the number of sales is 2147483648. -/
theorem stock_conservation_counterexample :
    ¬ ((run emptyStore
          [Op.addBook { duneHerbert with numCopies := 2147483647 },
            Op.addBook { duneHerbert with numCopies := 1 }]).1.books.map
          fun b => b.numCopies).sum =
        ([Op.addBook { duneHerbert with numCopies := 2147483647 },
          Op.addBook { duneHerbert with numCopies := 1 }].map intakeCopies).sum -
          ((run emptyStore
            [Op.addBook { duneHerbert with numCopies := 2147483647 },
              Op.addBook { duneHerbert with numCopies := 1 }]).2.countP
            Output.isBookSold : Nat) := by
  decide

/-- C17, amended. Stock conservation: in every state reached from the empty store by a
sequence of engine calls (in particular of `addBook` and `sellBookToCustomer` calls) in
which no book intake stores a sum outside the range of a 32-bit `int`, that is, at
every merging `addBook` the `numCopies` of the existing entry plus the `numCopies` of
the candidate lies in `INT_MIN .. INT_MAX`, the sum of `numCopies` over all book entries
is the sum of `numCopies` over all `addBook` candidates minus the number of book sales
that succeeded (each announced by one "Book sold to customer:" message); the same holds
for magazines with `issueNumber`, `addMagazine` and `sellMagazineToCustomer`, in every
sequence in which no magazine intake stores a sum outside that range. -/
theorem stock_conservation (c : Cashier) (ops : List Op) :
    (runBooksInRange (StoreManager.new c) ops = true →
      ((run (StoreManager.new c) ops).1.books.map fun b => b.numCopies).sum =
        (ops.map intakeCopies).sum -
          ((run (StoreManager.new c) ops).2.countP Output.isBookSold : Nat)) ∧
    (runMagazinesInRange (StoreManager.new c) ops = true →
      ((run (StoreManager.new c) ops).1.magazines.map fun m => m.issueNumber).sum =
        (ops.map intakeIssues).sum -
          ((run (StoreManager.new c) ops).2.countP Output.isMagazineSold : Nat)) := by
  refine ⟨?_, ?_⟩
  · intro hrange
    rw [run_book_stock ops (StoreManager.new c) hrange]
    simp [StoreManager.new]
  · intro hrange
    rw [run_magazine_stock ops (StoreManager.new c) hrange]
    simp [StoreManager.new]

theorem stock_conservation_witness :
    ((run (StoreManager.new (Cashier.new 1000))
          [Op.addBook duneHerbert, Op.addBook duneHerbert, Op.sellBook "Dune" 1965 true,
            Op.addMagazine wiredMagazine]).1.books.map
          fun b => b.numCopies).sum =
        ([Op.addBook duneHerbert, Op.addBook duneHerbert, Op.sellBook "Dune" 1965 true,
            Op.addMagazine wiredMagazine].map intakeCopies).sum -
          ((run (StoreManager.new (Cashier.new 1000))
            [Op.addBook duneHerbert, Op.addBook duneHerbert, Op.sellBook "Dune" 1965 true,
              Op.addMagazine wiredMagazine]).2.countP Output.isBookSold : Nat) :=
  (stock_conservation (Cashier.new 1000)
    [Op.addBook duneHerbert, Op.addBook duneHerbert, Op.sellBook "Dune" 1965 true,
      Op.addMagazine wiredMagazine]).1 (by decide)

end BookShop
